import Mathlib

/-!
Verification of the AskQL streaming transcript engine.

The definitions below are a shallow embedding of the client code in
src/askql-app/lib/api.ts (stream reading and frame decoding),
src/askql-app/hooks/use-message-handler.ts (the per-event reducers for
ask and agent mode, stop handling) and
src/askql-app/components/main-layout.tsx (the confirmation round).

JavaScript strings are modelled as Lean strings, JavaScript string
operations (includes, trim, split, startsWith, slice) as executable
functions on lists of characters, and JSON.parse as an executable
parser for a JSON value type.
-/

namespace AskQL

/-! ### JavaScript string primitives -/

/-- Substring test on character lists, the model of the JavaScript
`includes` method. -/
def infixB (pat : List Char) : List Char → Bool
  | [] => pat.isEmpty
  | c :: rest => pat.isPrefixOf (c :: rest) || infixB pat rest

/-- JavaScript `s.includes(pat)`. -/
def jsIncludes (s pat : String) : Bool := infixB pat.data s.data

/-- JavaScript whitespace as far as the transcripts are concerned. -/
def isJsSpace (c : Char) : Bool :=
  c = ' ' || c = '\t' || c = '\n' || c = '\r' || c = '\x0b' || c = '\x0c'

/-- JavaScript `trim` on character lists: drop whitespace on both ends. -/
def jsTrimL (cs : List Char) : List Char :=
  ((cs.dropWhile isJsSpace).reverse.dropWhile isJsSpace).reverse

/-- JavaScript `s.trim()`. -/
def jsTrim (s : String) : String := ⟨jsTrimL s.data⟩

/-- JavaScript `chunk.split("\n")` on character lists: the list of lines,
with empty segments kept, as `split` produces them. -/
def splitNl : List Char → List (List Char)
  | [] => [[]]
  | c :: rest =>
    if c = '\n' then [] :: splitNl rest
    else
      match splitNl rest with
      | [] => [[c]]
      | l :: ls => (c :: l) :: ls

/-! ### JSON values and JSON.parse

`Json` models the values produced by `JSON.parse` on the wire frames.
Numbers are kept as their lexeme, which is enough for the decoder
claims: they only depend on whether a line parses at all and on the
string fields of the parsed object. -/

inductive Json where
  | null
  | bool (b : Bool)
  | num (lexeme : String)
  | str (s : String)
  | arr (elems : List Json)
  | obj (members : List (String × Json))

/-- Skip JSON whitespace. -/
def skipWs : List Char → List Char
  | [] => []
  | c :: rest =>
    if c = ' ' || c = '\t' || c = '\n' || c = '\r' then skipWs rest else c :: rest

/-- Value of one hexadecimal digit. -/
def hexVal (c : Char) : Option Nat :=
  if '0' ≤ c ∧ c ≤ '9' then some (c.toNat - '0'.toNat)
  else if 'a' ≤ c ∧ c ≤ 'f' then some (c.toNat - 'a'.toNat + 10)
  else if 'A' ≤ c ∧ c ≤ 'F' then some (c.toNat - 'A'.toNat + 10)
  else none

/-- One escape sequence after a backslash inside a JSON string. -/
def parseEscape : List Char → Option (Char × List Char)
  | 'n' :: r => some ('\n', r)
  | 't' :: r => some ('\t', r)
  | 'r' :: r => some ('\r', r)
  | 'b' :: r => some ('\x08', r)
  | 'f' :: r => some ('\x0c', r)
  | '"' :: r => some ('"', r)
  | '\\' :: r => some ('\\', r)
  | '/' :: r => some ('/', r)
  | 'u' :: h1 :: h2 :: h3 :: h4 :: r =>
    match hexVal h1, hexVal h2, hexVal h3, hexVal h4 with
    | some a, some b, some c, some d =>
      some (Char.ofNat (((a * 16 + b) * 16 + c) * 16 + d), r)
    | _, _, _, _ => none
  | _ => none

/-- Body of a JSON string after the opening quote; returns the decoded
characters and the input after the closing quote. -/
def parseStrBody : Nat → List Char → Option (List Char × List Char)
  | 0, _ => none
  | _, [] => none
  | fuel + 1, c :: rest =>
    if c = '"' then some ([], rest)
    else if c = '\\' then
      match parseEscape rest with
      | some (e, r) =>
        match parseStrBody fuel r with
        | some (s, r2) => some (e :: s, r2)
        | none => none
      | none => none
    else if c.toNat < 32 then none
    else
      match parseStrBody fuel rest with
      | some (s, r2) => some (c :: s, r2)
      | none => none

/-- Leading run of decimal digits. -/
def takeDigits : List Char → List Char × List Char
  | [] => ([], [])
  | c :: rest =>
    if c.isDigit then
      match takeDigits rest with
      | (d, r) => (c :: d, r)
    else ([], c :: rest)

/-- Integer part of a JSON number: `0` or a nonzero digit followed by
digits. -/
def parseIntPart : List Char → Option (List Char × List Char)
  | [] => none
  | c :: rest =>
    if c = '0' then some (['0'], rest)
    else if c.isDigit then
      match takeDigits rest with
      | (d, r) => some (c :: d, r)
    else none

/-- Optional fraction part `.digits`. -/
def parseFracPart : List Char → Option (List Char × List Char)
  | '.' :: rest =>
    match takeDigits rest with
    | ([], _) => none
    | (d, r) => some ('.' :: d, r)
  | cs => some ([], cs)

/-- Optional exponent part. -/
def parseExpPart : List Char → Option (List Char × List Char)
  | c :: rest =>
    if c = 'e' || c = 'E' then
      match rest with
      | s :: rest2 =>
        if s = '+' || s = '-' then
          match takeDigits rest2 with
          | ([], _) => none
          | (d, r) => some (c :: s :: d, r)
        else
          match takeDigits rest with
          | ([], _) => none
          | (d, r) => some (c :: d, r)
      | [] => none
    else some ([], c :: rest)
  | [] => some ([], [])

/-- A JSON number, kept as its lexeme. -/
def parseNumber (cs : List Char) : Option (Json × List Char) :=
  let (sign, cs1) :=
    match cs with
    | '-' :: rest => (['-'], rest)
    | _ => (([] : List Char), cs)
  match parseIntPart cs1 with
  | none => none
  | some (ip, r1) =>
    match parseFracPart r1 with
    | none => none
    | some (fp, r2) =>
      match parseExpPart r2 with
      | none => none
      | some (ep, r3) => some (.num ⟨sign ++ ip ++ fp ++ ep⟩, r3)

mutual

/-- A JSON value; fuel bounds the recursion depth and is always given
as the input length plus one, which suffices because every recursive
call consumes input. -/
def parseValueF : Nat → List Char → Option (Json × List Char)
  | 0, _ => none
  | fuel + 1, cs =>
    match skipWs cs with
    | '{' :: rest => parseObjF fuel rest
    | '[' :: rest => parseArrF fuel rest
    | '"' :: rest =>
      match parseStrBody (rest.length + 1) rest with
      | some (s, r) => some (.str ⟨s⟩, r)
      | none => none
    | 't' :: 'r' :: 'u' :: 'e' :: rest => some (.bool true, rest)
    | 'f' :: 'a' :: 'l' :: 's' :: 'e' :: rest => some (.bool false, rest)
    | 'n' :: 'u' :: 'l' :: 'l' :: rest => some (.null, rest)
    | cs2 => parseNumber cs2

/-- Object body after the opening brace. -/
def parseObjF : Nat → List Char → Option (Json × List Char)
  | 0, _ => none
  | fuel + 1, cs =>
    match skipWs cs with
    | '}' :: rest => some (.obj [], rest)
    | cs2 => parseMembersF fuel cs2

/-- Nonempty member list of an object. -/
def parseMembersF : Nat → List Char → Option (Json × List Char)
  | 0, _ => none
  | fuel + 1, cs =>
    match skipWs cs with
    | '"' :: rest =>
      match parseStrBody (rest.length + 1) rest with
      | some (k, r) =>
        match skipWs r with
        | ':' :: r2 =>
          match parseValueF fuel r2 with
          | some (v, r3) =>
            match skipWs r3 with
            | ',' :: r4 =>
              match parseMembersF fuel r4 with
              | some (.obj ms, r5) => some (.obj ((⟨k⟩, v) :: ms), r5)
              | _ => none
            | '}' :: r4 => some (.obj [(⟨k⟩, v)], r4)
            | _ => none
          | none => none
        | _ => none
      | none => none
    | _ => none

/-- Array body after the opening bracket. -/
def parseArrF : Nat → List Char → Option (Json × List Char)
  | 0, _ => none
  | fuel + 1, cs =>
    match skipWs cs with
    | ']' :: rest => some (.arr [], rest)
    | cs2 => parseElemsF fuel cs2

/-- Nonempty element list of an array. -/
def parseElemsF : Nat → List Char → Option (Json × List Char)
  | 0, _ => none
  | fuel + 1, cs =>
    match parseValueF fuel cs with
    | some (v, r) =>
      match skipWs r with
      | ',' :: r2 =>
        match parseElemsF fuel r2 with
        | some (.arr es, r3) => some (.arr (v :: es), r3)
        | _ => none
      | ']' :: r2 => some (.arr [v], r2)
      | _ => none
    | none => none

end

/-- `JSON.parse`: a single value followed by nothing but whitespace. -/
def jsonParse (s : String) : Option Json :=
  match parseValueF (s.data.length + 1) s.data with
  | some (v, rest) => if (skipWs rest).isEmpty then some v else none
  | none => none

/-! ### The stream decoder

`sendAskQueryStream`, `sendAgentQueryStream` and
`confirmAgentOperationStream` all run the same chunk-processing body:

  const lines = chunk.split("\n");
  for (const line of lines)
    if (line.startsWith("data: "))
      onChunk(JSON.parse(line.slice(6)));

There is no carry buffer between chunks, and JSON.parse is not guarded,
so a malformed data line throws out of the loop.  `runLines` returns
the events handed to `onChunk` before any throw, together with a flag
that is true exactly when a line threw. -/

/-- The text every event line starts with. -/
def dataMarker : List Char := "data: ".data

/-- Process the split lines of one chunk: the delivered events and
whether a `JSON.parse` call threw. -/
def runLines : List (List Char) → List Json × Bool
  | [] => ([], false)
  | l :: ls =>
    if dataMarker.isPrefixOf l then
      match jsonParse ⟨l.drop 6⟩ with
      | some v =>
        match runLines ls with
        | (evs, err) => (v :: evs, err)
      | none => ([], true)
    else runLines ls

/-- Decode one chunk exactly as the read loops do. -/
def decodeChunk (chunk : String) : List Json × Bool :=
  runLines (splitNl chunk.data)

/-- What one line contributes when no exception interferes. -/
def parseLine (l : List Char) : Option Json :=
  if dataMarker.isPrefixOf l then jsonParse ⟨l.drop 6⟩ else none

/-! ### Transcript data model

The decoded events, dispatched on their `type` string in
use-message-handler.ts and main-layout.tsx.  Text payloads are strings;
the `chart_config` payload is carried as the text that
`JSON.stringify(data.content, null, 2)` renders it to, since every
handler only ever embeds that text.  Rows of a `sql_result` payload are
likewise carried as their rendered text. -/

inductive Role where
  | user
  | assistant
deriving DecidableEq, Repr

/-- One chat message, as kept in the `messages` state.  The timestamp
and model fields are never read or rewritten by any event handler and
are omitted. -/
structure Msg where
  id : String
  role : Role
  content : String
deriving DecidableEq, Repr

/-- The captured mutating operation between `confirmation_required`
and its resolution. -/
structure PendingOp where
  operation : String
  sql : String
  explanation : String
  model : String
deriving DecidableEq, Repr

/-- Payload of a `sql_result` event: `data = none` models an absent (or
null) `data` field, `data = some rows` a present array. -/
structure SqlResult where
  success : Bool
  row_count : Int
  data : Option (List String)
  message : Option String
  error : Option String
deriving DecidableEq, Repr

inductive StreamEvent where
  | ai_response (content : String)
  | sql_query (content : String)
  | step_indicator (content : String)
  | brief_reasoning (content : String)
  | loading (content : String)
  | sql_result (result : SqlResult)
  | analyzing (content : String)
  | final_answer_chunk (content : String)
  | final_answer_complete (content : String)
  | final_answer (content : String)
  | checking_graph (content : String)
  | chart_config (config : String)
  | graph_decision (content : String)
  | confirmation_required (operation sql message : String)
  | cancelled
  | done (conversation_id : Option Nat)
  | other (ty : String)
deriving DecidableEq, Repr

/-- The outer-scope mutable variables closed over by the streaming
`onChunk` callback of `handleSendMessage`, together with the React
state it writes. -/
structure HandlerState where
  messages : List Msg
  accumulated : String
  finalAnswer : String
  aiResponse : String
  currentStatus : String
  conversationId : Option Nat
  pendingOperation : Option PendingOp
deriving DecidableEq, Repr

/-- Values fixed for the lifetime of one `handleSendMessage` call. -/
structure StreamParams where
  streamingMessageId : String
  isGeneralMode : Bool
  model : String
deriving Repr

/-- The `setMessages` update shape used by every streaming handler:
copy the list and overwrite the last message when the guard holds. -/
def setLastIf (ms : List Msg) (g : Msg → Bool) (f : Msg → Msg) : List Msg :=
  match ms.getLast? with
  | none => ms
  | some m => if g m then ms.dropLast ++ [f m] else ms

/-- `buildContent` of the ask-mode branch of `handleSendMessage`. -/
def buildContentAsk (isGeneralMode : Bool) (accumulated finalAnswer : String) : String :=
  let content := accumulated
  if finalAnswer ≠ "" then
    let hasSqlExecution := jsIncludes accumulated "**Executed SQL Query:**"
    let hasAtSymbol := jsIncludes content "@"
    if isGeneralMode || !hasSqlExecution || !hasAtSymbol then
      if jsTrim content ≠ "" then content ++ "\n\n" ++ finalAnswer
      else finalAnswer
    else content ++ "\n\n---\n\n**💡 Conclusion:**\n" ++ finalAnswer
  else content

/-- `buildContent` of the agent-mode branch of `handleSendMessage`. -/
def buildContentAgent (isGeneralMode : Bool) (accumulated finalAnswer : String) : String :=
  let content := accumulated
  if finalAnswer ≠ "" then
    let hasAtSymbol := jsIncludes content "@"
    if isGeneralMode || !hasAtSymbol then
      if jsTrim content ≠ "" then content ++ "\n\n" ++ finalAnswer
      else finalAnswer
    else content ++ "\n\n---\n\n**💡 Summary:**\n" ++ finalAnswer
  else content

/-- Rendering of rows, the model of `JSON.stringify(rows, null, 2)`;
`none` renders as the text `undefined` interpolates to.  The claims
depend only on this being a fixed function of the rows. -/
def stringifyRows : Option (List String) → String
  | none => "undefined"
  | some [] => "[]"
  | some rows => "[\n" ++ String.intercalate ",\n" rows ++ "\n]"

/-- JavaScript `a || b` for an optional string `a`: the fallback is
used when the field is absent or the empty string. -/
def jsOrElse (a : Option String) (b : String) : String :=
  match a with
  | some s => if s = "" then b else s
  | none => b

def askSqlQueryText (c : String) : String :=
  "\n\n**Executed SQL Query:**\n```sql\n" ++ c ++ "\n```\n"

def agentSqlQueryText (c : String) : String :=
  "\n\n**Executed SQL:**\n```sql\n" ++ c ++ "\n```\n"

def stepIndicatorText (c : String) : String :=
  "\n\n---\n\n### " ++ c ++ "\n"

def briefReasoningText (c : String) : String :=
  "\n\n---\n\n💭 **Next Step:** " ++ c ++ "\n\n"

def chartConfigText (cfg : String) : String :=
  "\n\n**📊 Visualization:**\n```chart\n" ++ cfg ++ "\n```\n"

/-- The row-returning result block shared by both streaming reducers. -/
def rowResultText (r : SqlResult) : String :=
  "\n**📋 Query Result:** (" ++ toString r.row_count ++ " row" ++
    (if r.row_count ≠ 1 then "s" else "") ++ " returned)\n\n" ++
  "<details open>\n<summary>Results</summary>\n\n```json\n" ++
    stringifyRows r.data ++ "\n```\n</details>\n"

/-- What the ask-mode `sql_result` handler appends to `accumulated`. -/
def askSqlResultText (r : SqlResult) : String :=
  if r.success then rowResultText r else ""

/-- What the agent-mode `sql_result` handler appends: the row block
requires a present and nonempty `data` array, otherwise the mutation
line is used. -/
def agentSqlResultText (r : SqlResult) : String :=
  if r.success then
    match r.data with
    | some rows =>
      if rows.length > 0 then rowResultText r
      else "\n**✅ Result:** " ++ jsOrElse r.message (toString r.row_count ++ " row(s) affected")
    | none => "\n**✅ Result:** " ++ jsOrElse r.message (toString r.row_count ++ " row(s) affected")
  else ""

/-! ### btoa -/

def b64Alphabet : List Char :=
  "ABCDEFGHIJKLMNOPQRSTUVWXYZabcdefghijklmnopqrstuvwxyz0123456789+/".data

def sextetChar (n : Nat) : Char :=
  if h : n < b64Alphabet.length then b64Alphabet.get ⟨n, h⟩ else 'A'

/-- Base64 encoding of a byte list. -/
def btoaBytes : List Nat → List Char
  | [] => []
  | [a] => [sextetChar (a / 4), sextetChar (a % 4 * 16), '=', '=']
  | [a, b] => [sextetChar (a / 4), sextetChar (a % 4 * 16 + b / 16), sextetChar (b % 16 * 4), '=']
  | a :: b :: c :: rest =>
    sextetChar (a / 4) :: sextetChar (a % 4 * 16 + b / 16) ::
      sextetChar (b % 16 * 4 + c / 64) :: sextetChar (c % 64) :: btoaBytes rest

/-- JavaScript `btoa` on a latin1 string. -/
def btoa (s : String) : String := ⟨btoaBytes (s.data.map (fun c => c.toNat % 256))⟩

/-- The confirmation block the agent `confirmation_required` handler
appends: message, SQL block, warning line, and the confirmation tag. -/
def confirmationText (operation sql message model : String) : String :=
  message ++ "\n\n**SQL to Execute:**\n```sql\n" ++ sql ++
  "\n```\n\n**⚠️ This operation will modify your data. Please confirm:**\n\n<confirmation operation=\"" ++
  operation ++ "\" sql=\"" ++ btoa sql ++ "\" message=\"" ++ btoa message ++
  "\" model=\"" ++ model ++ "\" />"

/-! ### The two regex replaces and trim of the cancel paths -/

def tagStartLit : List Char := "\n\n<confirmation".data

/-- Index of the first greater-than sign. -/
def idxOfGt : List Char → Option Nat
  | [] => none
  | c :: rest => if c = '>' then some 0 else (idxOfGt rest).map (· + 1)

/-- Match of the pattern consisting of the literal start of the tag,
one or more characters other than a greater-than sign, a slash, and a
greater-than sign, at the head of the input; returns the number of
characters the match consumes. -/
def tagMatchLen (cs : List Char) : Option Nat :=
  if tagStartLit.isPrefixOf cs then
    match idxOfGt (cs.drop tagStartLit.length) with
    | some j =>
      if 2 ≤ j ∧ (cs.drop tagStartLit.length).getD (j - 1) ' ' = '/' then
        some (tagStartLit.length + j + 1)
      else none
    | none => none
  else none

theorem tagMatchLen_pos {cs : List Char} {n : Nat} (h : tagMatchLen cs = some n) :
    0 < n := by
  unfold tagMatchLen at h
  split at h
  · split at h
    · split at h
      · simp only [Option.some.injEq] at h
        omega
      · simp at h
    · simp at h
  · simp at h

/-- Global replacement of the confirmation-tag pattern by nothing. -/
def removeConfTagsL : List Char → List Char
  | [] => []
  | c :: cs =>
    match h : tagMatchLen (c :: cs) with
    | some n => removeConfTagsL ((c :: cs).drop n)
    | none => c :: removeConfTagsL cs
termination_by l => l.length
decreasing_by
  · have hp := tagMatchLen_pos h
    simp only [List.length_drop, List.length_cons]
    omega
  · simp

def warnLit : List Char :=
  "**⚠️ This operation will modify your data. Please confirm:**".data

theorem dropWarn_length_lt (c : Char) (cs : List Char) :
    (((c :: cs).drop warnLit.length).dropWhile (· = '\n')).length < (c :: cs).length := by
  have h1 : (((c :: cs).drop warnLit.length).dropWhile (· = '\n')).length ≤
      ((c :: cs).drop warnLit.length).length :=
    (List.dropWhile_sublist _).length_le
  have h2 : 0 < warnLit.length := by decide
  simp only [List.length_drop, List.length_cons] at *
  omega

/-- Global replacement of the warning line followed by any run of
newlines by nothing. -/
def removeWarnL : List Char → List Char
  | [] => []
  | c :: cs =>
    if warnLit.isPrefixOf (c :: cs) then
      removeWarnL (((c :: cs).drop warnLit.length).dropWhile (· = '\n'))
    else c :: removeWarnL cs
termination_by l => l.length
decreasing_by
  · exact dropWarn_length_lt _ _
  · simp

/-- The cleanup both cancel paths run on the last assistant message:
replace the tag pattern, replace the warning pattern, trim. -/
def cancelCleanup (content : String) : String :=
  jsTrim ⟨removeWarnL (removeConfTagsL content.data)⟩

/-! ### Ask-mode reducer -/

/-- One `onChunk` step of the ask-mode streaming branch of
`handleSendMessage`. -/
def applyAskEvent (p : StreamParams) (s : HandlerState) (e : StreamEvent) : HandlerState :=
  match e with
  | .ai_response c =>
    { s with aiResponse := c,
             messages := s.messages ++
               [⟨p.streamingMessageId, .assistant,
                 buildContentAsk p.isGeneralMode s.accumulated s.finalAnswer⟩] }
  | .sql_query c =>
    let acc := s.accumulated ++ askSqlQueryText c
    { s with accumulated := acc,
             messages := setLastIf s.messages (fun m => m.id = p.streamingMessageId)
               (fun m => { m with content := buildContentAsk p.isGeneralMode acc s.finalAnswer }) }
  | .step_indicator c =>
    let acc := s.accumulated ++ stepIndicatorText c
    { s with accumulated := acc,
             messages := setLastIf s.messages (fun m => m.id = p.streamingMessageId)
               (fun m => { m with content := buildContentAsk p.isGeneralMode acc s.finalAnswer }) }
  | .brief_reasoning c =>
    let acc := s.accumulated ++ briefReasoningText c
    { s with accumulated := acc,
             messages := setLastIf s.messages (fun m => m.id = p.streamingMessageId)
               (fun m => { m with content := buildContentAsk p.isGeneralMode acc s.finalAnswer }) }
  | .loading c =>
    { s with currentStatus := if c = "" then "Processing..." else c }
  | .sql_result r =>
    let acc := s.accumulated ++ askSqlResultText r
    { s with accumulated := acc,
             messages := setLastIf s.messages (fun m => m.id = p.streamingMessageId)
               (fun m => { m with content := buildContentAsk p.isGeneralMode acc s.finalAnswer }) }
  | .analyzing c =>
    { s with messages := setLastIf s.messages (fun m => m.id = p.streamingMessageId)
               (fun m => { m with content := buildContentAsk p.isGeneralMode s.accumulated s.finalAnswer ++ "\n\n> 🧠 " ++ c }) }
  | .final_answer_chunk c =>
    let fa := s.finalAnswer ++ c
    { s with currentStatus := "AI is generating conclusion...",
             finalAnswer := fa,
             messages := setLastIf s.messages (fun m => m.id = p.streamingMessageId)
               (fun m => { m with content := buildContentAsk p.isGeneralMode s.accumulated fa }) }
  | .final_answer_complete c =>
    { s with finalAnswer := c,
             messages := setLastIf s.messages (fun m => m.id = p.streamingMessageId)
               (fun m => { m with content := buildContentAsk p.isGeneralMode s.accumulated c }) }
  | .final_answer c =>
    { s with finalAnswer := c,
             messages :=
               match s.messages.getLast? with
               | some m =>
                 if m.id = p.streamingMessageId then
                   s.messages.dropLast ++
                     [{ m with content := buildContentAsk p.isGeneralMode s.accumulated c }]
                 else
                   s.messages ++
                     [⟨p.streamingMessageId, .assistant,
                       buildContentAsk p.isGeneralMode s.accumulated c⟩]
               | none =>
                 s.messages ++
                   [⟨p.streamingMessageId, .assistant,
                     buildContentAsk p.isGeneralMode s.accumulated c⟩] }
  | .checking_graph c =>
    { s with messages := setLastIf s.messages (fun m => m.id = p.streamingMessageId)
               (fun m => { m with content := buildContentAsk p.isGeneralMode s.accumulated s.finalAnswer ++ "\n\n> 📊 " ++ c }) }
  | .chart_config cfg =>
    let acc := s.accumulated ++ chartConfigText cfg
    { s with currentStatus := "AI is generating visualization...",
             accumulated := acc,
             messages := setLastIf s.messages (fun m => m.id = p.streamingMessageId)
               (fun m => { m with content := buildContentAsk p.isGeneralMode acc s.finalAnswer }) }
  | .graph_decision _ =>
    { s with messages := setLastIf s.messages (fun m => m.id = p.streamingMessageId)
               (fun m => { m with content := buildContentAsk p.isGeneralMode s.accumulated s.finalAnswer }) }
  | .done cid =>
    { s with currentStatus := "",
             conversationId :=
               match s.conversationId with
               | none => cid
               | some x => some x }
  | .confirmation_required _ _ _ => s
  | .cancelled => s
  | .other _ => s

/-! ### Agent-mode reducer -/

/-- One `onChunk` step of the agent-mode streaming branch of
`handleSendMessage`. -/
def applyAgentEvent (p : StreamParams) (s : HandlerState) (e : StreamEvent) : HandlerState :=
  match e with
  | .ai_response c =>
    { s with aiResponse := c,
             messages := s.messages ++
               [⟨p.streamingMessageId, .assistant,
                 buildContentAgent p.isGeneralMode s.accumulated s.finalAnswer⟩] }
  | .sql_query c =>
    let acc := s.accumulated ++ agentSqlQueryText c
    { s with accumulated := acc,
             messages := setLastIf s.messages (fun m => m.id = p.streamingMessageId)
               (fun m => { m with content := buildContentAgent p.isGeneralMode acc s.finalAnswer }) }
  | .sql_result r =>
    let acc := s.accumulated ++ agentSqlResultText r
    { s with accumulated := acc,
             messages := setLastIf s.messages (fun m => m.id = p.streamingMessageId)
               (fun m => { m with content := buildContentAgent p.isGeneralMode acc s.finalAnswer }) }
  | .step_indicator c =>
    let acc := s.accumulated ++ stepIndicatorText c
    { s with accumulated := acc,
             messages := setLastIf s.messages (fun m => m.id = p.streamingMessageId)
               (fun m => { m with content := buildContentAgent p.isGeneralMode acc s.finalAnswer }) }
  | .brief_reasoning c =>
    let acc := s.accumulated ++ briefReasoningText c
    { s with accumulated := acc,
             messages := setLastIf s.messages (fun m => m.id = p.streamingMessageId)
               (fun m => { m with content := buildContentAgent p.isGeneralMode acc s.finalAnswer }) }
  | .chart_config cfg =>
    let acc := s.accumulated ++ chartConfigText cfg
    { s with currentStatus := "AI is generating visualization...",
             accumulated := acc,
             messages := setLastIf s.messages (fun m => m.id = p.streamingMessageId)
               (fun m => { m with content := buildContentAgent p.isGeneralMode acc s.finalAnswer }) }
  | .final_answer_chunk c =>
    let fa := s.finalAnswer ++ c
    { s with currentStatus := "AI is generating conclusion...",
             finalAnswer := fa,
             messages := setLastIf s.messages (fun m => m.id = p.streamingMessageId)
               (fun m => { m with content := buildContentAgent p.isGeneralMode s.accumulated fa }) }
  | .final_answer_complete c =>
    { s with finalAnswer := c,
             messages := setLastIf s.messages (fun m => m.id = p.streamingMessageId)
               (fun m => { m with content := buildContentAgent p.isGeneralMode s.accumulated c }) }
  | .final_answer c =>
    { s with finalAnswer := c,
             messages :=
               match s.messages.getLast? with
               | some m =>
                 if m.id = p.streamingMessageId then
                   s.messages.dropLast ++
                     [{ m with content := buildContentAgent p.isGeneralMode s.accumulated c }]
                 else
                   s.messages ++
                     [⟨p.streamingMessageId, .assistant,
                       buildContentAgent p.isGeneralMode s.accumulated c⟩]
               | none =>
                 s.messages ++
                   [⟨p.streamingMessageId, .assistant,
                     buildContentAgent p.isGeneralMode s.accumulated c⟩] }
  | .confirmation_required op sql msg =>
    { s with pendingOperation := some ⟨op, sql, msg, p.model⟩,
             messages :=
               match s.messages.getLast? with
               | some m =>
                 if m.id = p.streamingMessageId then
                   s.messages.dropLast ++
                     [{ m with content :=
                        buildContentAgent p.isGeneralMode s.accumulated s.finalAnswer ++
                          "\n\n" ++ confirmationText op sql msg p.model }]
                 else
                   s.messages ++
                     [⟨p.streamingMessageId, .assistant, confirmationText op sql msg p.model⟩]
               | none =>
                 s.messages ++
                   [⟨p.streamingMessageId, .assistant, confirmationText op sql msg p.model⟩] }
  | .cancelled =>
    { s with messages := setLastIf s.messages (fun m => m.role = .assistant)
               (fun m => { m with content := cancelCleanup m.content }) }
  | .loading c =>
    { s with currentStatus := c }
  | .done cid =>
    { s with currentStatus := "",
             conversationId :=
               match s.conversationId with
               | none => cid
               | some x => some x }
  | .analyzing _ => s
  | .checking_graph _ => s
  | .graph_decision _ => s
  | .other _ => s

/-! ### The confirmation round in main-layout.tsx

`onConfirmAction` owns its own React state.  `applyConfirmEvent` is one
`onEvent` step of the `confirmAgentOperationStream` callback in the
execute branch.  The double-check `typeof result.success` and
`typeof result.row_count` of the mutation branch are always true in
the typed model.  The `confirmation_required` branch reloads the
conversation from the backend; the reload result is an input of the
step. -/

/-- Values fixed for one execute round: the confirmed operation, the
model, and what `loadConversation` would fetch from the backend. -/
structure ConfirmEnv where
  operation : String
  model : String
  fetched : List Msg
deriving Repr

/-- The layout state the confirmation handlers read and write. -/
structure LayoutState where
  messages : List Msg
  localStatus : String
  isStreaming : Bool
  pendingOperation : Option PendingOp
  conversationId : Option Nat
deriving DecidableEq, Repr

/-- JavaScript `operation.toLowerCase()` followed by the past-tense
rule of the mutation success line. -/
def pastTense (operation : String) : String :=
  let lower : List Char := operation.data.map Char.toLower
  if lower.getLast? = some 'e' then ⟨lower.dropLast⟩ ++ "ed" else ⟨lower⟩ ++ "ed"

/-- Success line of a confirmed mutation. -/
def confirmMutationText (operation : String) (rc : Int) : String :=
  "**✅ Result:** Successfully " ++ pastTense operation ++ " " ++ toString rc ++ " record(s)."

/-- Error line of a failed confirmed mutation. -/
def confirmErrorText (r : SqlResult) : String :=
  "**❌ Error:** " ++ jsOrElse r.error "Operation failed"

/-- Query-result block of the confirm stream (SELECT shape). -/
def confirmQueryResultText (r : SqlResult) : String :=
  "\n\n**📋 Query Result:** (" ++ toString r.row_count ++ " row" ++
    (if r.row_count ≠ 1 then "s" else "") ++ " returned)\n\n```table\n" ++
    stringifyRows (some (r.data.getD [])) ++ "\n```"

/-- SQL block appended by the confirm stream. -/
def confirmSqlQueryText (c : String) : String :=
  "\n\n**Executed SQL Query:**\n```sql\n" ++ c ++ "\n```"

/-- Chart block appended by the confirm stream. -/
def confirmChartText (cfg : String) : String :=
  "\n\n```chart\n" ++ cfg ++ "\n```"

def summaryHeadText : String := "\n\n**💡 Summary:**"

/-- The suffix of `cs` strictly after the last occurrence of `lit`,
the model of `lastIndexOf` plus `substring`. -/
def afterLast (lit : List Char) : List Char → Option (List Char)
  | [] => if lit.isEmpty then some [] else none
  | c :: rest =>
    match afterLast lit rest with
    | some r => some r
    | none =>
      if lit.isPrefixOf (c :: rest) then some ((c :: rest).drop lit.length)
      else none

/-- The `final_answer_chunk` content update of the confirm stream.
The header append mutates the shared message object, so it survives
even on the duplicate-chunk path that returns the previous state. -/
def confirmChunkContent (c content : String) : String :=
  let content1 :=
    if jsIncludes content summaryHeadText then content
    else content ++ (summaryHeadText ++ "\n")
  match afterLast (summaryHeadText ++ "\n").data content1.data with
  | some currentSummary =>
    if c.data.isSuffixOf currentSummary then content1
    else content1 ++ c
  | none => content1 ++ c

/-- The duplicate-check-then-append shape every confirm-stream append
uses: skip when `pat` already occurs in the content, append `add`
otherwise. -/
def dedupAppend (pat add : String) (m : Msg) : Msg :=
  if jsIncludes m.content pat then m else { m with content := m.content ++ add }

/-- The mutation branch of the confirm-stream `sql_result` handler. -/
def confirmMutationStep (env : ConfirmEnv) (s : LayoutState) (r : SqlResult) : LayoutState :=
  if r.success then
    { s with localStatus := "Operation completed, analyzing next steps...",
             messages := setLastIf s.messages (fun m => m.role = .assistant)
               (dedupAppend (confirmMutationText env.operation r.row_count)
                 ("\n\n" ++ confirmMutationText env.operation r.row_count)) }
  else
    { s with localStatus := "Operation completed, analyzing next steps...",
             messages := setLastIf s.messages (fun m => m.role = .assistant)
               (dedupAppend (confirmErrorText r) ("\n\n" ++ confirmErrorText r)) }

/-- The query branch of the confirm-stream `sql_result` handler. -/
def confirmQueryStep (s : LayoutState) (r : SqlResult) : LayoutState :=
  { s with messages := setLastIf s.messages (fun m => m.role = Role.assistant && r.success)
             (dedupAppend (confirmQueryResultText r) (confirmQueryResultText r)) }

/-- One `onEvent` step of the execute-branch stream callback of
`onConfirmAction`. -/
def applyConfirmEvent (env : ConfirmEnv) (s : LayoutState) (e : StreamEvent) : LayoutState :=
  match e with
  | .sql_result r =>
    if env.operation ≠ "" ∧ r.data = none then confirmMutationStep env s r
    else confirmQueryStep s r
  | .brief_reasoning c =>
    { s with messages := setLastIf s.messages (fun m => m.role = .assistant)
               (dedupAppend ("💭 **Next Step:** " ++ c) (briefReasoningText c)) }
  | .loading c =>
    { s with localStatus := c }
  | .confirmation_required op sql msg =>
    { s with localStatus := "",
             isStreaming := false,
             pendingOperation := some ⟨op, sql, msg, env.model⟩,
             messages := if s.conversationId.isSome then env.fetched else s.messages }
  | .final_answer_chunk c =>
    { s with messages := setLastIf s.messages (fun m => m.role = .assistant)
               (fun m => { m with content := confirmChunkContent c m.content }) }
  | .final_answer_complete _ => s
  | .sql_query c =>
    { s with messages := setLastIf s.messages (fun m => m.role = .assistant)
               (dedupAppend c (confirmSqlQueryText c)) }
  | .chart_config cfg =>
    { s with messages := setLastIf s.messages (fun m => m.role = .assistant)
               (dedupAppend (confirmChartText cfg) (confirmChartText cfg)) }
  | .done cid =>
    { s with localStatus := "",
             isStreaming := false,
             conversationId :=
               match s.conversationId with
               | none => cid
               | some x => some x }
  | _ => s

/-! ### Resolution of a pending confirmation -/

/-- Requests `onConfirmAction` can issue. -/
inductive ApiRequest where
  | agentQuery (query : String) (conversationId : Option Nat) (model : String)
  | confirmExecute (conversationId : Option Nat) (operation sql explanation : String)
      (confirmed : Bool) (model : String)
deriving DecidableEq, Repr

def isConfirmExecute : ApiRequest → Bool
  | .confirmExecute .. => true
  | _ => false

/-- The cancel branch of `onConfirmAction`: clear the pending
operation, POST a plain agent query, and when the response is 2xx
strip the confirmation tag and warning from the last assistant
message.  Returns the new state and the requests issued. -/
def resolveCancel (model : String) (ok : Bool) (s : LayoutState) :
    LayoutState × List ApiRequest :=
  let s1 := { s with pendingOperation := none }
  let reqs := [ApiRequest.agentQuery "Cancel" s.conversationId model]
  let clean := fun (m : Msg) => { m with content := cancelCleanup m.content }
  if ok then
    ({ s1 with messages := setLastIf s1.messages (fun m => m.role = .assistant) clean }, reqs)
  else (s1, reqs)

/-! ### Stop and the stream read loop -/

/-- The slice of hook state `handleStopGeneration` can touch: whether
an abort controller for a live `handleSendMessage` stream exists,
whether its signal was fired, the loading flag, and the pending
operation it never reads. -/
structure StopState where
  abortControllerLive : Bool
  abortSignalled : Bool
  isLoading : Bool
  pendingOperation : Option PendingOp
deriving DecidableEq, Repr

/-- `handleStopGeneration`: only acts when an abort controller is
present. -/
def handleStopGeneration (s : StopState) : StopState :=
  if s.abortControllerLive then
    { s with abortControllerLive := false, abortSignalled := true, isLoading := false }
  else s

/-- The chunked read loop of `sendAskQueryStream`: before every read
the abort signal is checked, and an abort during an in-flight read
rejects it, so a chunk is applied exactly when it was fully read
before the signal fired.  `cancelAfter` is the number of reads that
complete before the signal is observed; a run without cancellation
passes at least the number of chunks. -/
def runAskChunks (p : StreamParams) :
    HandlerState → List (List StreamEvent) → Nat → HandlerState
  | s, _, 0 => s
  | s, [], _ => s
  | s, chunk :: rest, k + 1 =>
    runAskChunks p (chunk.foldl (applyAskEvent p) s) rest k

/-! ### Claim C1 -/

theorem runAskChunks_take (p : StreamParams) :
    ∀ (chunks : List (List StreamEvent)) (k : Nat) (s0 : HandlerState),
      runAskChunks p s0 chunks k = ((chunks.take k).flatten).foldl (applyAskEvent p) s0 := by
  intro chunks
  induction chunks with
  | nil =>
    intro k s0
    cases k <;> rfl
  | cons c cs ih =>
    intro k s0
    cases k with
    | zero => rfl
    | succ k =>
      simp only [runAskChunks, List.take_succ_cons, List.flatten_cons, List.foldl_append]
      exact ih k _

/-- Claim C1: cancellation freeze.  The read loop checks the abort
signal before every read and discards an in-flight read that the abort
rejects, so cancelling after `k` delivered chunks and letting the rest
of the stream arrive anyway leaves the handler state, the transcript
included, identical to a run that stops at chunk `k`; taking every
chunk to be a single event gives the per-event statement. -/
theorem c1_cancellation_freeze (p : StreamParams) (s0 : HandlerState)
    (chunks : List (List StreamEvent)) (k : Nat) :
    runAskChunks p s0 chunks k =
      runAskChunks p s0 (chunks.take k) (chunks.take k).length := by
  rw [runAskChunks_take, runAskChunks_take, List.take_length]

/-! ### Claim C2 -/

/-- The concrete chunk of the spec scenario: one malformed data line
followed by one well-formed loading line. -/
def badChunk : String :=
  "data: \x7bnot json\ndata: \x7b\"type\":\"loading\",\"content\":\"Processing...\"\x7d"

/-- Claim C2, counterexample: on the scenario chunk the decoder does
not yield exactly one event without raising; the unguarded
`JSON.parse` of the malformed line throws first, so no event at all is
delivered and the exception escapes. -/
theorem c2_counterexample :
    ¬ ((decodeChunk badChunk).2 = false ∧ (decodeChunk badChunk).1.length = 1) := by
  intro h
  have he : decodeChunk badChunk = ([], true) := rfl
  rw [he] at h
  simp at h

/-- Claim C2, amended: a data line that fails to parse raises out of
the chunk loop: the well-formed data lines before it still deliver
their events, but the failing line and everything after it deliver
none, and the exception aborts the stream; on the scenario chunk this
means zero events and a raise. -/
theorem c2_amended :
    decodeChunk badChunk = ([], true) ∧
    ∀ (pre : List (List Char)) (bad : List Char) (post : List (List Char)),
      (∀ l ∈ pre, dataMarker.isPrefixOf l = true → (jsonParse ⟨l.drop 6⟩).isSome = true) →
      dataMarker.isPrefixOf bad = true →
      jsonParse ⟨bad.drop 6⟩ = none →
      runLines (pre ++ bad :: post) = (pre.filterMap parseLine, true) := by
  refine ⟨rfl, ?_⟩
  intro pre bad post hpre hbad hparse
  induction pre with
  | nil =>
    simp [runLines, hbad, hparse]
  | cons l ls ih =>
    have hih := ih (fun m hm hp => hpre m (List.mem_cons_of_mem _ hm) hp)
    by_cases hl : dataMarker.isPrefixOf l = true
    · obtain ⟨v, hv⟩ := Option.isSome_iff_exists.mp (hpre l (List.mem_cons_self _ _) hl)
      simp [runLines, hl, hv, parseLine, hih]
    · simp [runLines, hl, parseLine, hih]

/-- Witness for the amended claim C2 at the scenario chunk: the
malformed line raises before the valid loading line is reached. -/
theorem c2_amended_witness :
    runLines (([] : List (List Char)) ++
        "data: \x7bnot json".data ::
          ["data: \x7b\"type\":\"loading\",\"content\":\"Processing...\"\x7d".data]) =
      (([] : List (List Char)).filterMap parseLine, true) :=
  c2_amended.2 [] _ _ (by simp) (by decide) rfl

/-! ### Claim C3 -/

/-- The loading line split mid-way through its `data: ` marker. -/
def chunkA : String := "da"

def chunkB : String :=
  "ta: \x7b\"type\":\"loading\",\"content\":\"Processing...\"\x7d\n"

def wholeChunk : String :=
  "data: \x7b\"type\":\"loading\",\"content\":\"Processing...\"\x7d\n"

/-- Claim C3, counterexample: the decoder keeps no carry between
chunks, so splitting the loading line after its first two characters
loses the event: decoding the two chunks yields no event while
decoding the whole text yields one. -/
theorem c3_counterexample :
    chunkA ++ chunkB = wholeChunk ∧
    (decodeChunk chunkA).1 ++ (decodeChunk chunkB).1 ≠ (decodeChunk wholeChunk).1 := by
  refine ⟨rfl, ?_⟩
  intro h
  have h1 : ((decodeChunk chunkA).1 ++ (decodeChunk chunkB).1).length = 0 := rfl
  have h2 : (decodeChunk wholeChunk).1.length = 1 := rfl
  rw [h] at h1
  omega

/-- Lines joined with a trailing newline each. -/
def unlinesL (ls : List (List Char)) : List Char :=
  (ls.map (fun l => l ++ ['\n'])).flatten

theorem splitNl_line (l rest : List Char) (hl : '\n' ∉ l) :
    splitNl (l ++ '\n' :: rest) = l :: splitNl rest := by
  induction l with
  | nil => simp [splitNl]
  | cons c cl ih =>
    have hc : ¬ c = '\n' := fun e => hl (e ▸ List.mem_cons_self c cl)
    have hih := ih (fun h => hl (List.mem_cons_of_mem _ h))
    simp only [List.cons_append, splitNl, hc, if_false]
    rw [show cl.append ('\n' :: rest) = cl ++ '\n' :: rest from rfl, hih]

theorem splitNl_unlines (ls : List (List Char)) (h : ∀ l ∈ ls, '\n' ∉ l) :
    splitNl (unlinesL ls) = ls ++ [[]] := by
  induction ls with
  | nil => rfl
  | cons l ls ih =>
    have h1 : unlinesL (l :: ls) = l ++ '\n' :: unlinesL ls := by
      simp [unlinesL]
    rw [h1, splitNl_line l _ (h l (List.mem_cons_self _ _)),
        ih (fun m hm => h m (List.mem_cons_of_mem _ hm))]
    rfl

theorem runLines_append_empty (ls : List (List Char)) :
    runLines (ls ++ [[]]) = runLines ls := by
  induction ls with
  | nil => rfl
  | cons l ls ih =>
    by_cases hl : dataMarker.isPrefixOf l = true
    · cases hv : jsonParse ⟨l.drop 6⟩ with
      | some v => simp [runLines, hl, hv, ih]
      | none => simp [runLines, hl, hv]
    · simp [runLines, hl, ih]

theorem runLines_append (ls1 ls2 : List (List Char)) (h : (runLines ls1).2 = false) :
    runLines (ls1 ++ ls2) = ((runLines ls1).1 ++ (runLines ls2).1, (runLines ls2).2) := by
  induction ls1 with
  | nil => simp [runLines]
  | cons l ls ih =>
    by_cases hl : dataMarker.isPrefixOf l = true
    · cases hv : jsonParse ⟨l.drop 6⟩ with
      | some v =>
        have h2 : (runLines ls).2 = false := by
          simpa [runLines, hl, hv] using h
        simp [runLines, hl, hv, ih h2]
      | none =>
        exact absurd h (by simp [runLines, hl, hv])
    · have h2 : (runLines ls).2 = false := by
        simpa [runLines, hl] using h
      simp [runLines, hl, ih h2]

/-- Claim C3, amended: there is no carry buffer, each chunk is split on
newlines by itself.  Per-chunk decoding therefore agrees with decoding
the whole text only when every chunk is a whole run of
newline-terminated lines (and the first chunk raises nothing); a chunk
boundary inside a `data: ` line, as in the concrete split, loses the
event. -/
theorem c3_amended :
    (chunkA ++ chunkB = wholeChunk ∧
     (decodeChunk chunkA).1 ++ (decodeChunk chunkB).1 = [] ∧
     (decodeChunk wholeChunk).1.length = 1) ∧
    ∀ (ls1 ls2 : List (List Char)),
      (∀ l ∈ ls1, '\n' ∉ l) → (∀ l ∈ ls2, '\n' ∉ l) →
      (runLines ls1).2 = false →
      (decodeChunk ⟨unlinesL ls1⟩).1 ++ (decodeChunk ⟨unlinesL ls2⟩).1 =
        (decodeChunk ⟨unlinesL (ls1 ++ ls2)⟩).1 := by
  refine ⟨⟨rfl, rfl, rfl⟩, ?_⟩
  intro ls1 ls2 h1 h2 hok
  have hd : ∀ ls : List (List Char), (∀ l ∈ ls, '\n' ∉ l) →
      (decodeChunk ⟨unlinesL ls⟩).1 = (runLines ls).1 := by
    intro ls hls
    show (runLines (splitNl (unlinesL ls))).1 = (runLines ls).1
    rw [splitNl_unlines ls hls, runLines_append_empty]
  have h12 : ∀ l ∈ ls1 ++ ls2, '\n' ∉ l := by
    intro l hm
    rcases List.mem_append.mp hm with hm1 | hm2
    · exact h1 l hm1
    · exact h2 l hm2
  rw [hd ls1 h1, hd ls2 h2, hd (ls1 ++ ls2) h12, runLines_append ls1 ls2 hok]

/-- Witness for the amended claim C3 on two one-line chunks: decoding
them separately and decoding their concatenation agree. -/
theorem c3_amended_witness :
    (decodeChunk ⟨unlinesL ["ax".data]⟩).1 ++ (decodeChunk ⟨unlinesL ["by".data]⟩).1 =
      (decodeChunk ⟨unlinesL (["ax".data] ++ ["by".data])⟩).1 :=
  c3_amended.2 ["ax".data] ["by".data] (by decide) (by decide) rfl

/-! ### Substring lemmas for the deduplication guards -/

theorem infixB_iff (pat l : List Char) : infixB pat l = true ↔ pat <:+: l := by
  induction l with
  | nil =>
    simp [infixB, List.isEmpty_iff, List.infix_nil]
  | cons c cs ih =>
    simp [infixB, List.isPrefixOf_iff_prefix, ih, List.infix_cons_iff]

theorem jsIncludes_iff (s pat : String) : jsIncludes s pat = true ↔ pat.data <:+: s.data :=
  infixB_iff pat.data s.data

/-- Appending cannot lose an occurrence. -/
theorem jsIncludes_append_left (s x pat : String) (h : jsIncludes s pat = true) :
    jsIncludes (s ++ x) pat = true := by
  rw [jsIncludes_iff] at h ⊢
  rw [String.data_append]
  exact h.trans ⟨[], x.data, by simp⟩

/-- A fragment occurs in any content it was just appended to, pre- and
post-wrapped. -/
theorem jsIncludes_append_mid (a pre c post : String) :
    jsIncludes (a ++ (pre ++ c ++ post)) c = true := by
  rw [jsIncludes_iff]
  refine ⟨a.data ++ pre.data, post.data, ?_⟩
  simp [String.data_append, List.append_assoc]

/-- A block occurs in any content it was just appended to. -/
theorem jsIncludes_append_self (a b : String) : jsIncludes (a ++ b) b = true := by
  rw [jsIncludes_iff]
  exact ⟨a.data, [], by simp [String.data_append]⟩

theorem setLastIf_concat (l : List Msg) (a : Msg) (g : Msg → Bool) (f : Msg → Msg) :
    setLastIf (l ++ [a]) g f = if g a then l ++ [f a] else l ++ [a] := by
  unfold setLastIf
  rw [List.getLast?_concat]
  by_cases hg : g a
  · simp [hg, List.dropLast_concat]
  · simp [hg]

theorem setLastIf_idem (ms : List Msg) (g : Msg → Bool) (f : Msg → Msg)
    (hg : ∀ m, g m = true → g (f m) = true) (hf : ∀ m, g m = true → f (f m) = f m) :
    setLastIf (setLastIf ms g f) g f = setLastIf ms g f := by
  rcases List.eq_nil_or_concat ms with rfl | ⟨l, a, rfl⟩
  · rfl
  · simp only [List.concat_eq_append]
    rw [setLastIf_concat]
    by_cases hga : g a = true
    · rw [if_pos hga, setLastIf_concat, if_pos (hg a hga), hf a hga]
    · rw [if_neg (by simp [hga]), setLastIf_concat, if_neg (by simp [hga])]

theorem dedupAppend_id (pat add : String) (m : Msg) : (dedupAppend pat add m).id = m.id := by
  unfold dedupAppend
  split <;> rfl

theorem dedupAppend_role (pat add : String) (m : Msg) :
    (dedupAppend pat add m).role = m.role := by
  unfold dedupAppend
  split <;> rfl

/-- When the skipped pattern occurs in everything the append produces,
the duplicate check makes the append idempotent. -/
theorem dedupAppend_idem (pat add : String)
    (h : ∀ content : String, jsIncludes (content ++ add) pat = true) (m : Msg) :
    dedupAppend pat add (dedupAppend pat add m) = dedupAppend pat add m := by
  unfold dedupAppend
  by_cases hm : jsIncludes m.content pat = true
  · simp [hm]
  · simp [hm, h m.content]

/-! ### Claim C5 -/

/-- A round state with an active assistant message, used by the
concrete counterexamples. -/
def exampleParams : StreamParams := ⟨"m1", false, "gemini-2.5-flash"⟩

def exampleState : HandlerState :=
  ⟨[⟨"u0", .user, "hi"⟩, ⟨"m1", .assistant, ""⟩], "", "", "", "", none, none⟩

/-- Content of the message the stream is building. -/
def lastContent (s : HandlerState) : String :=
  ((s.messages.getLast?).map Msg.content).getD ""

/-- Claim C5, counterexample: in the streaming reducer the `sql_query`
append is unconditional, so applying the same `sql_query` event twice
in direct succession duplicates the block instead of being skipped. -/
theorem c5_counterexample :
    lastContent (applyAskEvent exampleParams
        (applyAskEvent exampleParams exampleState (.sql_query "SELECT 1"))
        (.sql_query "SELECT 1")) ≠
      lastContent (applyAskEvent exampleParams exampleState (.sql_query "SELECT 1")) := by
  decide

/-- Claim C5, amended: `final_answer_complete` is idempotent in both
streaming reducers (it replaces the final answer), and the `sql_query`
and `chart_config` appends are idempotent in the confirmation-round
handler, whose appends are guarded by a contains check; the streaming
reducers guard neither `sql_query` nor `chart_config`. -/
theorem c5_amended :
    (∀ (p : StreamParams) (s : HandlerState) (c : String),
      applyAskEvent p (applyAskEvent p s (.final_answer_complete c)) (.final_answer_complete c) =
        applyAskEvent p s (.final_answer_complete c)) ∧
    (∀ (p : StreamParams) (s : HandlerState) (c : String),
      applyAgentEvent p (applyAgentEvent p s (.final_answer_complete c)) (.final_answer_complete c) =
        applyAgentEvent p s (.final_answer_complete c)) ∧
    (∀ (env : ConfirmEnv) (s : LayoutState) (c : String),
      applyConfirmEvent env (applyConfirmEvent env s (.sql_query c)) (.sql_query c) =
        applyConfirmEvent env s (.sql_query c)) ∧
    (∀ (env : ConfirmEnv) (s : LayoutState) (cfg : String),
      applyConfirmEvent env (applyConfirmEvent env s (.chart_config cfg)) (.chart_config cfg) =
        applyConfirmEvent env s (.chart_config cfg)) := by
  refine ⟨?_, ?_, ?_, ?_⟩
  · intro p s c
    simp only [applyAskEvent]
    congr 1
    exact setLastIf_idem _ _ _ (fun m hm => hm) (fun m _ => rfl)
  · intro p s c
    simp only [applyAgentEvent]
    congr 1
    exact setLastIf_idem _ _ _ (fun m hm => hm) (fun m _ => rfl)
  · intro env s c
    simp only [applyConfirmEvent]
    congr 1
    refine setLastIf_idem _ _ _ (fun m hm => ?_) (fun m _ => ?_)
    · rw [dedupAppend_role]; exact hm
    · exact dedupAppend_idem c (confirmSqlQueryText c)
        (fun content => jsIncludes_append_mid content "\n\n**Executed SQL Query:**\n```sql\n" c "\n```") m
  · intro env s cfg
    simp only [applyConfirmEvent]
    congr 1
    refine setLastIf_idem _ _ _ (fun m hm => ?_) (fun m _ => ?_)
    · rw [dedupAppend_role]; exact hm
    · exact dedupAppend_idem (confirmChartText cfg) (confirmChartText cfg)
        (fun content => jsIncludes_append_self content (confirmChartText cfg)) m

/-! ### Claim C8 -/

/-- Claim C8, counterexample: a successful `sql_result` whose `data`
field is the empty array is rendered by the agent streaming reducer as
the mutation result line, not as a row-returning result block — the
reducer requires `data.length > 0` for the row block, so the
distinction is not made purely by presence of the `data` field. -/
theorem c8_counterexample :
    (applyAgentEvent exampleParams exampleState
        (.sql_result ⟨true, 0, some [], none, none⟩)).accumulated =
      "\n**✅ Result:** 0 row(s) affected" ∧
    jsIncludes (lastContent (applyAgentEvent exampleParams exampleState
        (.sql_result ⟨true, 0, some [], none, none⟩))) "📋 Query Result" = false := by
  decide

/-- Claim C8, amended: the confirmation-round handler classifies by
absence of the `data` field alone, so an empty `data` array takes the
row-returning branch there; the agent streaming reducer additionally
requires the array to be nonempty, so an empty `data` array is
rendered as a mutation result line, exactly like an absent field. -/
theorem c8_amended :
    (∀ (env : ConfirmEnv) (s : LayoutState) (r : SqlResult),
      r.data = some [] →
      applyConfirmEvent env s (.sql_result r) = confirmQueryStep s r) ∧
    (∀ (env : ConfirmEnv) (s : LayoutState) (r : SqlResult),
      env.operation ≠ "" → r.data = none →
      applyConfirmEvent env s (.sql_result r) = confirmMutationStep env s r) ∧
    (∀ (r : SqlResult) (rows : List String),
      r.success = true → r.data = some rows → rows ≠ [] →
      agentSqlResultText r = rowResultText r) ∧
    (∀ r : SqlResult,
      r.success = true → (r.data = none ∨ r.data = some []) →
      agentSqlResultText r =
        "\n**✅ Result:** " ++ jsOrElse r.message (toString r.row_count ++ " row(s) affected")) := by
  refine ⟨?_, ?_, ?_, ?_⟩
  · intro env s r hdata
    simp [applyConfirmEvent, hdata]
  · intro env s r hop hdata
    simp [applyConfirmEvent, hop, hdata]
  · intro r rows hs hdata hne
    simp [agentSqlResultText, hs, hdata, List.length_pos, hne]
  · intro r hs hdata
    rcases hdata with hdata | hdata <;> simp [agentSqlResultText, hs, hdata]

/-- Witness for the amended claim C8 at concrete payloads. -/
theorem c8_amended_witness :
    applyConfirmEvent ⟨"UPDATE", "g", []⟩ ⟨[], "", true, none, some 7⟩
        (.sql_result ⟨true, 0, some [], none, none⟩) =
      confirmQueryStep ⟨[], "", true, none, some 7⟩ ⟨true, 0, some [], none, none⟩ ∧
    applyConfirmEvent ⟨"UPDATE", "g", []⟩ ⟨[], "", true, none, some 7⟩
        (.sql_result ⟨true, 3, none, none, none⟩) =
      confirmMutationStep ⟨"UPDATE", "g", []⟩ ⟨[], "", true, none, some 7⟩
        ⟨true, 3, none, none, none⟩ ∧
    agentSqlResultText ⟨true, 2, some ["r1", "r2"], none, none⟩ =
      rowResultText ⟨true, 2, some ["r1", "r2"], none, none⟩ ∧
    agentSqlResultText ⟨true, 0, some [], none, none⟩ =
      "\n**✅ Result:** " ++ jsOrElse none (toString (0 : Int) ++ " row(s) affected") :=
  ⟨c8_amended.1 _ _ _ rfl,
   c8_amended.2.1 _ _ _ (by decide) rfl,
   c8_amended.2.2.1 _ ["r1", "r2"] rfl rfl (by decide),
   c8_amended.2.2.2 _ rfl (Or.inr rfl)⟩

/-! ### Claim C4 -/

/-- Length of the content of the message the stream is building; zero
when no such message exists yet. -/
def activeContentLen (p : StreamParams) (s : HandlerState) : Nat :=
  match s.messages.getLast? with
  | some m => if m.id = p.streamingMessageId then m.content.length else 0
  | none => 0

/-- The run invariant of the agent streaming reducer: the accumulated
buffer is empty or has visible text, and the active message, when
present, shows exactly the composed content of the buffers. -/
def AgentInv (p : StreamParams) (s : HandlerState) : Prop :=
  (s.accumulated = "" ∨ jsTrim s.accumulated ≠ "") ∧
  (∀ m, s.messages.getLast? = some m → m.id = p.streamingMessageId →
    m.content = buildContentAgent p.isGeneralMode s.accumulated s.finalAnswer)

/-- The event kinds whose agent-mode handlers only append. -/
def agentMonotoneKind : StreamEvent → Bool
  | .final_answer_complete _ => false
  | .final_answer _ => false
  | .cancelled => false
  | .confirmation_required _ _ _ => false
  | _ => true

theorem jsTrimL_eq_nil_iff (l : List Char) :
    jsTrimL l = [] ↔ ∀ c ∈ l, isJsSpace c = true := by
  unfold jsTrimL
  rw [List.reverse_eq_nil_iff, List.dropWhile_eq_nil_iff]
  constructor
  · intro h c hc
    rw [← List.takeWhile_append_dropWhile (p := isJsSpace) (l := l)] at hc
    rcases List.mem_append.mp hc with hc | hc
    · exact List.mem_takeWhile_imp hc
    · exact h c (List.mem_reverse.mpr hc)
  · intro h c hc
    have hc2 : c ∈ l.dropWhile isJsSpace := List.mem_reverse.mp hc
    exact h c ((List.dropWhile_sublist isJsSpace).subset hc2)

theorem jsTrim_eq_empty_iff (s : String) :
    jsTrim s = "" ↔ ∀ c ∈ s.data, isJsSpace c = true := by
  unfold jsTrim
  rw [show ("" : String) = ⟨[]⟩ from rfl]
  constructor
  · intro h
    exact (jsTrimL_eq_nil_iff s.data).mp (congrArg String.data h)
  · intro h
    exact congrArg String.mk ((jsTrimL_eq_nil_iff s.data).mpr h)

theorem jsTrim_append_ne_left (a x : String) (h : jsTrim a ≠ "") :
    jsTrim (a ++ x) ≠ "" := by
  intro he
  refine h ((jsTrim_eq_empty_iff a).mpr ?_)
  intro c hc
  exact (jsTrim_eq_empty_iff (a ++ x)).mp he c
    (by rw [String.data_append]; exact List.mem_append_left _ hc)

theorem jsTrim_append_ne_right (a x : String)
    (h : ∃ c ∈ x.data, isJsSpace c = false) : jsTrim (a ++ x) ≠ "" := by
  obtain ⟨c, hc, hw⟩ := h
  intro he
  have := (jsTrim_eq_empty_iff (a ++ x)).mp he c
    (by rw [String.data_append]; exact List.mem_append_right _ hc)
  rw [hw] at this
  exact Bool.false_ne_true this

theorem bca_fa_empty (g : Bool) (a : String) : buildContentAgent g a "" = a := by
  simp [buildContentAgent]

theorem bca_concl (g : Bool) (a fa : String) (hfa : fa ≠ "") (hg : g = false)
    (hinc : jsIncludes a "@" = true) :
    buildContentAgent g a fa = a ++ "\n\n---\n\n**💡 Summary:**\n" ++ fa := by
  simp [buildContentAgent, hfa, hg, hinc, String.append_assoc]

theorem bca_plain_trim (g : Bool) (a fa : String) (hfa : fa ≠ "")
    (hplain : (g || !jsIncludes a "@") = true) (htrim : jsTrim a ≠ "") :
    buildContentAgent g a fa = a ++ "\n\n" ++ fa := by
  simp [buildContentAgent, hfa, hplain, htrim, String.append_assoc]

theorem bca_plain_notrim (g : Bool) (a fa : String) (hfa : fa ≠ "")
    (hplain : (g || !jsIncludes a "@") = true) (htrim : jsTrim a = "") :
    buildContentAgent g a fa = fa := by
  simp [buildContentAgent, hfa, hplain, htrim]

/-- When the plain branch is not taken, the conclusion branch is. -/
theorem plain_false (g : Bool) (a : String)
    (h : ¬ (g || !jsIncludes a "@") = true) :
    g = false ∧ jsIncludes a "@" = true := by
  constructor
  · cases g
    · rfl
    · exact absurd (by simp) h
  · cases hinc : jsIncludes a "@"
    · exact absurd (by simp [hinc]) h
    · rfl

/-- The composed content is at least as long as the final answer. -/
theorem bca_len_lower (g : Bool) (a fa : String) (hfa : fa ≠ "") :
    fa.length ≤ (buildContentAgent g a fa).length := by
  by_cases hplain : (g || !jsIncludes a "@") = true
  · by_cases htrim : jsTrim a = ""
    · rw [bca_plain_notrim g a fa hfa hplain htrim]
    · rw [bca_plain_trim g a fa hfa hplain htrim]
      simp [String.length_append]
  · obtain ⟨hg, hinc⟩ := plain_false g a hplain
    rw [bca_concl g a fa hfa hg hinc]
    simp [String.length_append]

/-- The composed agent content cannot shrink when the accumulated
buffer is extended. -/
theorem buildContentAgent_len_mono_acc (g : Bool) (acc x fa : String) :
    (buildContentAgent g acc fa).length ≤ (buildContentAgent g (acc ++ x) fa).length := by
  have hsum : ("\n\n---\n\n**💡 Summary:**\n" : String).length = 22 := by decide
  have htwo : ("\n\n" : String).length = 2 := by decide
  by_cases hfa : fa = ""
  · subst hfa
    rw [bca_fa_empty, bca_fa_empty, String.length_append]
    omega
  · by_cases hplain : (g || !jsIncludes acc "@") = true
    · by_cases htrim : jsTrim acc = ""
      · rw [bca_plain_notrim g acc fa hfa hplain htrim]
        exact bca_len_lower g (acc ++ x) fa hfa
      · rw [bca_plain_trim g acc fa hfa hplain htrim]
        have htrim2 : jsTrim (acc ++ x) ≠ "" := jsTrim_append_ne_left _ _ htrim
        by_cases hplain2 : (g || !jsIncludes (acc ++ x) "@") = true
        · rw [bca_plain_trim g (acc ++ x) fa hfa hplain2 htrim2]
          simp only [String.length_append]
          omega
        · obtain ⟨hg, hinc2⟩ := plain_false g (acc ++ x) hplain2
          rw [bca_concl g (acc ++ x) fa hfa hg hinc2]
          simp only [String.length_append, hsum]
          omega
    · obtain ⟨hg, hinc⟩ := plain_false g acc hplain
      have hinc2 : jsIncludes (acc ++ x) "@" = true := jsIncludes_append_left _ _ _ hinc
      rw [bca_concl g acc fa hfa hg hinc, bca_concl g (acc ++ x) fa hfa hg hinc2]
      simp only [String.length_append]
      omega

theorem String.append_eq_empty_iff (a b : String) : a ++ b = "" ↔ a = "" ∧ b = "" := by
  constructor
  · intro h
    have hd : a.data ++ b.data = [] := by
      have := congrArg String.data h
      rwa [String.data_append] at this
    rcases List.append_eq_nil.mp hd with ⟨ha, hb⟩
    exact ⟨congrArg String.mk ha, congrArg String.mk hb⟩
  · rintro ⟨rfl, rfl⟩
    rfl

/-- The composed agent content cannot shrink when the final answer is
extended, provided the accumulated buffer is empty or visible. -/
theorem buildContentAgent_len_mono_fa (g : Bool) (acc fa y : String)
    (hacc : acc = "" ∨ jsTrim acc ≠ "") :
    (buildContentAgent g acc fa).length ≤ (buildContentAgent g acc (fa ++ y)).length := by
  have hsum : ("\n\n---\n\n**💡 Summary:**\n" : String).length = 22 := by decide
  have htwo : ("\n\n" : String).length = 2 := by decide
  by_cases hfay : fa ++ y = ""
  · obtain ⟨hfa, hy⟩ := (String.append_eq_empty_iff fa y).mp hfay
    subst hfa
    rw [hfay, bca_fa_empty]
  · by_cases hfa : fa = ""
    · subst hfa
      rw [bca_fa_empty]
      by_cases hplain : (g || !jsIncludes acc "@") = true
      · by_cases htrim : jsTrim acc = ""
        · have hae : acc = "" := by
            rcases hacc with h | h
            · exact h
            · exact absurd htrim h
          rw [bca_plain_notrim g acc _ hfay hplain htrim, hae]
          simp
        · rw [bca_plain_trim g acc _ hfay hplain htrim]
          simp only [String.length_append]
          omega
      · obtain ⟨hg, hinc⟩ := plain_false g acc hplain
        rw [bca_concl g acc _ hfay hg hinc]
        simp only [String.length_append]
        omega
    · have hlen : (fa ++ y).length = fa.length + y.length := String.length_append fa y
      by_cases hplain : (g || !jsIncludes acc "@") = true
      · by_cases htrim : jsTrim acc = ""
        · rw [bca_plain_notrim g acc fa hfa hplain htrim,
            bca_plain_notrim g acc _ hfay hplain htrim]
          omega
        · rw [bca_plain_trim g acc fa hfa hplain htrim,
            bca_plain_trim g acc _ hfay hplain htrim]
          simp only [String.length_append]
          omega
      · obtain ⟨hg, hinc⟩ := plain_false g acc hplain
        rw [bca_concl g acc fa hfa hg hinc, bca_concl g acc _ hfay hg hinc]
        simp only [String.length_append]
        omega

theorem setLastIf_getLast? (ms : List Msg) (g : Msg → Bool) (f : Msg → Msg) :
    (setLastIf ms g f).getLast? =
      match ms.getLast? with
      | none => none
      | some m => if g m then some (f m) else some m := by
  rcases List.eq_nil_or_concat ms with rfl | ⟨l, a, rfl⟩
  · rfl
  · simp only [List.concat_eq_append]
    rw [setLastIf_concat, List.getLast?_concat]
    by_cases hg : g a = true
    · simp [hg, List.getLast?_concat]
    · simp [hg, List.getLast?_concat]

theorem setLastIf_getLast?_none (ms : List Msg) (g : Msg → Bool) (f : Msg → Msg)
    (h : ms.getLast? = none) : (setLastIf ms g f).getLast? = none := by
  rw [setLastIf_getLast?, h]

theorem setLastIf_getLast?_pos (ms : List Msg) (g : Msg → Bool) (f : Msg → Msg) (m : Msg)
    (h : ms.getLast? = some m) (hg : g m = true) :
    (setLastIf ms g f).getLast? = some (f m) := by
  rw [setLastIf_getLast?, h]
  simp [hg]

theorem setLastIf_getLast?_neg (ms : List Msg) (g : Msg → Bool) (f : Msg → Msg) (m : Msg)
    (h : ms.getLast? = some m) (hg : g m = false) :
    (setLastIf ms g f).getLast? = some m := by
  rw [setLastIf_getLast?, h]
  simp [hg]

/-- A handler that changes neither buffers nor messages preserves the
invariant and the active length. -/
theorem agentInv_still (p : StreamParams) (s s' : HandlerState) (hInv : AgentInv p s)
    (h1 : s'.accumulated = s.accumulated) (h2 : s'.finalAnswer = s.finalAnswer)
    (h3 : s'.messages = s.messages) :
    AgentInv p s' ∧ activeContentLen p s ≤ activeContentLen p s' := by
  constructor
  · refine ⟨by rw [h1]; exact hInv.1, ?_⟩
    intro m hm hid
    rw [h1, h2]
    exact hInv.2 m (by rw [← h3]; exact hm) hid
  · unfold activeContentLen
    rw [h3]

/-- A handler that appends `t` to the accumulated buffer and refreshes
the active message preserves the invariant and cannot shrink the
active content. -/
theorem agentInv_append (p : StreamParams) (s s' : HandlerState) (t : String)
    (hInv : AgentInv p s)
    (ht : t = "" ∨ ∃ c ∈ t.data, isJsSpace c = false)
    (h1 : s'.accumulated = s.accumulated ++ t)
    (h2 : s'.finalAnswer = s.finalAnswer)
    (h3 : s'.messages = setLastIf s.messages (fun m => m.id = p.streamingMessageId)
      (fun m => { m with
        content := buildContentAgent p.isGeneralMode (s.accumulated ++ t) s.finalAnswer })) :
    AgentInv p s' ∧ activeContentLen p s ≤ activeContentLen p s' := by
  have haccOk : s'.accumulated = "" ∨ jsTrim s'.accumulated ≠ "" := by
    rw [h1]
    rcases ht with rfl | hne
    · rw [String.append_empty]
      exact hInv.1
    · right
      exact jsTrim_append_ne_right _ _ hne
  constructor
  · refine ⟨haccOk, ?_⟩
    intro m hm hid
    rw [h3] at hm
    cases hml : s.messages.getLast? with
    | none =>
      rw [setLastIf_getLast?_none _ _ _ hml] at hm
      exact absurd hm (by simp)
    | some m0 =>
      by_cases hid0 : m0.id = p.streamingMessageId
      · rw [setLastIf_getLast?_pos _ _ _ m0 hml (by simp [hid0])] at hm
        rw [← Option.some.inj hm, h1, h2]
      · rw [setLastIf_getLast?_neg _ _ _ m0 hml (by simp [hid0])] at hm
        exact absurd (Option.some.inj hm ▸ hid) hid0
  · unfold activeContentLen
    rw [h3]
    cases hml : s.messages.getLast? with
    | none =>
      rw [setLastIf_getLast?_none _ _ _ hml]
    | some m0 =>
      by_cases hid0 : m0.id = p.streamingMessageId
      · rw [setLastIf_getLast?_pos _ _ _ m0 hml (by simp [hid0])]
        show (if m0.id = p.streamingMessageId then m0.content.length else 0) ≤
          (if m0.id = p.streamingMessageId then
            (buildContentAgent p.isGeneralMode (s.accumulated ++ t) s.finalAnswer).length
          else 0)
        rw [if_pos hid0, if_pos hid0, hInv.2 m0 hml hid0]
        exact buildContentAgent_len_mono_acc p.isGeneralMode s.accumulated t s.finalAnswer
      · rw [setLastIf_getLast?_neg _ _ _ m0 hml (by simp [hid0])]

/-- The `final_answer_chunk` handler preserves the invariant and
cannot shrink the active content. -/
theorem agentInv_fa_append (p : StreamParams) (s s' : HandlerState) (t : String)
    (hInv : AgentInv p s)
    (h1 : s'.accumulated = s.accumulated)
    (h2 : s'.finalAnswer = s.finalAnswer ++ t)
    (h3 : s'.messages = setLastIf s.messages (fun m => m.id = p.streamingMessageId)
      (fun m => { m with
        content := buildContentAgent p.isGeneralMode s.accumulated (s.finalAnswer ++ t) })) :
    AgentInv p s' ∧ activeContentLen p s ≤ activeContentLen p s' := by
  constructor
  · refine ⟨by rw [h1]; exact hInv.1, ?_⟩
    intro m hm hid
    rw [h3] at hm
    cases hml : s.messages.getLast? with
    | none =>
      rw [setLastIf_getLast?_none _ _ _ hml] at hm
      exact absurd hm (by simp)
    | some m0 =>
      by_cases hid0 : m0.id = p.streamingMessageId
      · rw [setLastIf_getLast?_pos _ _ _ m0 hml (by simp [hid0])] at hm
        rw [← Option.some.inj hm, h1, h2]
      · rw [setLastIf_getLast?_neg _ _ _ m0 hml (by simp [hid0])] at hm
        exact absurd (Option.some.inj hm ▸ hid) hid0
  · unfold activeContentLen
    rw [h3]
    cases hml : s.messages.getLast? with
    | none =>
      rw [setLastIf_getLast?_none _ _ _ hml]
    | some m0 =>
      by_cases hid0 : m0.id = p.streamingMessageId
      · rw [setLastIf_getLast?_pos _ _ _ m0 hml (by simp [hid0])]
        show (if m0.id = p.streamingMessageId then m0.content.length else 0) ≤
          (if m0.id = p.streamingMessageId then
            (buildContentAgent p.isGeneralMode s.accumulated (s.finalAnswer ++ t)).length
          else 0)
        rw [if_pos hid0, if_pos hid0, hInv.2 m0 hml hid0]
        exact buildContentAgent_len_mono_fa p.isGeneralMode s.accumulated s.finalAnswer t hInv.1
      · rw [setLastIf_getLast?_neg _ _ _ m0 hml (by simp [hid0])]

/-- The `ai_response` handler pushes a fresh active message showing the
composed content; the invariant is preserved and the active content
cannot shrink. -/
theorem agentInv_push (p : StreamParams) (s s' : HandlerState) (hInv : AgentInv p s)
    (h1 : s'.accumulated = s.accumulated) (h2 : s'.finalAnswer = s.finalAnswer)
    (h3 : s'.messages = s.messages ++ [⟨p.streamingMessageId, .assistant,
      buildContentAgent p.isGeneralMode s.accumulated s.finalAnswer⟩]) :
    AgentInv p s' ∧ activeContentLen p s ≤ activeContentLen p s' := by
  constructor
  · refine ⟨by rw [h1]; exact hInv.1, ?_⟩
    intro m hm hid
    rw [h3, List.getLast?_concat] at hm
    rw [← Option.some.inj hm, h1, h2]
  · unfold activeContentLen
    rw [h3, List.getLast?_concat]
    cases hml : s.messages.getLast? with
    | none => exact Nat.zero_le _
    | some m0 =>
      show (if m0.id = p.streamingMessageId then m0.content.length else 0) ≤
        (if p.streamingMessageId = p.streamingMessageId then
          (buildContentAgent p.isGeneralMode s.accumulated s.finalAnswer).length
        else 0)
      rw [if_pos rfl]
      by_cases hid0 : m0.id = p.streamingMessageId
      · rw [if_pos hid0, hInv.2 m0 hml hid0]
      · rw [if_neg hid0]
        exact Nat.zero_le _

theorem mem_data_append_left {c : Char} (a b : String) (h : c ∈ a.data) :
    c ∈ (a ++ b).data := by
  rw [String.data_append]
  exact List.mem_append_left _ h

theorem star_mem_agentSqlQueryText (c : String) :
    ∃ ch ∈ (agentSqlQueryText c).data, isJsSpace ch = false := by
  refine ⟨'*', ?_, by decide⟩
  unfold agentSqlQueryText
  exact mem_data_append_left _ _ (mem_data_append_left _ _ (by decide))

theorem dash_mem_stepIndicatorText (c : String) :
    ∃ ch ∈ (stepIndicatorText c).data, isJsSpace ch = false := by
  refine ⟨'-', ?_, by decide⟩
  unfold stepIndicatorText
  exact mem_data_append_left _ _ (mem_data_append_left _ _ (by decide))

theorem star_mem_briefReasoningText (c : String) :
    ∃ ch ∈ (briefReasoningText c).data, isJsSpace ch = false := by
  refine ⟨'-', ?_, by decide⟩
  unfold briefReasoningText
  exact mem_data_append_left _ _ (mem_data_append_left _ _ (by decide))

theorem star_mem_chartConfigText (c : String) :
    ∃ ch ∈ (chartConfigText c).data, isJsSpace ch = false := by
  refine ⟨'*', ?_, by decide⟩
  unfold chartConfigText
  exact mem_data_append_left _ _ (mem_data_append_left _ _ (by decide))

theorem star_mem_rowResultText (r : SqlResult) :
    ∃ ch ∈ (rowResultText r).data, isJsSpace ch = false := by
  refine ⟨'*', ?_, by decide⟩
  unfold rowResultText
  exact mem_data_append_left _ _ (mem_data_append_left _ _ (mem_data_append_left _ _
    (mem_data_append_left _ _ (mem_data_append_left _ _ (mem_data_append_left _ _
      (mem_data_append_left _ _ (by decide)))))))

theorem agentSqlResultText_visible (r : SqlResult) :
    agentSqlResultText r = "" ∨ ∃ ch ∈ (agentSqlResultText r).data, isJsSpace ch = false := by
  unfold agentSqlResultText
  by_cases hs : r.success = true
  · rw [if_pos hs]
    right
    cases hd : r.data with
    | none =>
      exact ⟨'*', mem_data_append_left _ _ (by decide), by decide⟩
    | some rows =>
      show ∃ ch ∈ (if rows.length > 0 then rowResultText r
        else "\n**✅ Result:** " ++
          jsOrElse r.message (toString r.row_count ++ " row(s) affected")).data,
        isJsSpace ch = false
      by_cases hlen : rows.length > 0
      · rw [if_pos hlen]
        exact star_mem_rowResultText r
      · rw [if_neg hlen]
        exact ⟨'*', mem_data_append_left _ _ (by decide), by decide⟩
  · rw [if_neg hs]
    exact Or.inl rfl

/-- One allowed agent event preserves the invariant and cannot shrink
the active content. -/
theorem c4_step (p : StreamParams) (s : HandlerState) (e : StreamEvent)
    (he : agentMonotoneKind e = true) (hInv : AgentInv p s) :
    AgentInv p (applyAgentEvent p s e) ∧
      activeContentLen p s ≤ activeContentLen p (applyAgentEvent p s e) := by
  cases e with
  | ai_response c => exact agentInv_push p s _ hInv rfl rfl rfl
  | sql_query c =>
    exact agentInv_append p s _ (agentSqlQueryText c) hInv
      (Or.inr (star_mem_agentSqlQueryText c)) rfl rfl rfl
  | sql_result r =>
    exact agentInv_append p s _ (agentSqlResultText r) hInv
      (agentSqlResultText_visible r) rfl rfl rfl
  | step_indicator c =>
    exact agentInv_append p s _ (stepIndicatorText c) hInv
      (Or.inr (dash_mem_stepIndicatorText c)) rfl rfl rfl
  | brief_reasoning c =>
    exact agentInv_append p s _ (briefReasoningText c) hInv
      (Or.inr (star_mem_briefReasoningText c)) rfl rfl rfl
  | chart_config cfg =>
    exact agentInv_append p s _ (chartConfigText cfg) hInv
      (Or.inr (star_mem_chartConfigText cfg)) rfl rfl rfl
  | final_answer_chunk c =>
    exact agentInv_fa_append p s _ c hInv rfl rfl rfl
  | loading c => exact agentInv_still p s _ hInv rfl rfl rfl
  | done cid => exact agentInv_still p s _ hInv rfl rfl rfl
  | analyzing c => exact agentInv_still p s _ hInv rfl rfl rfl
  | checking_graph c => exact agentInv_still p s _ hInv rfl rfl rfl
  | graph_decision c => exact agentInv_still p s _ hInv rfl rfl rfl
  | other ty => exact agentInv_still p s _ hInv rfl rfl rfl
  | final_answer_complete c => exact absurd he (by simp [agentMonotoneKind])
  | final_answer c => exact absurd he (by simp [agentMonotoneKind])
  | cancelled => exact absurd he (by simp [agentMonotoneKind])
  | confirmation_required op sql msg => exact absurd he (by simp [agentMonotoneKind])

def c4ConfState : HandlerState :=
  applyAgentEvent exampleParams exampleState
    (.confirmation_required "D" "x" "m")

/-- Claim C4, amended: content length is non-decreasing along every
agent event sequence drawn from the kinds whose handlers only append —
all kinds except `final_answer_complete`, `final_answer`, `cancelled`
and `confirmation_required` — starting from any state satisfying the
run invariant; `cancelled` (which removes the confirmation directive)
and the two final-answer replacements genuinely shrink content. -/
theorem c4_amended (p : StreamParams) (es : List StreamEvent) (s : HandlerState)
    (hall : ∀ e ∈ es, agentMonotoneKind e = true) (hInv : AgentInv p s) :
    AgentInv p (es.foldl (applyAgentEvent p) s) ∧
      activeContentLen p s ≤ activeContentLen p (es.foldl (applyAgentEvent p) s) := by
  induction es generalizing s with
  | nil => exact ⟨hInv, Nat.le_refl _⟩
  | cons e es ih =>
    obtain ⟨hInv1, hle1⟩ := c4_step p s e (hall e (List.mem_cons_self _ _)) hInv
    obtain ⟨hInv2, hle2⟩ := ih (applyAgentEvent p s e)
      (fun e2 he2 => hall e2 (List.mem_cons_of_mem _ he2)) hInv1
    exact ⟨hInv2, Nat.le_trans hle1 hle2⟩

/-- Witness for the amended claim C4 on a concrete round. -/
theorem c4_amended_witness :
    AgentInv exampleParams
      (([StreamEvent.sql_query "SELECT 1", .final_answer_chunk "One."]).foldl
        (applyAgentEvent exampleParams) exampleState) ∧
    activeContentLen exampleParams exampleState ≤
      activeContentLen exampleParams
        (([StreamEvent.sql_query "SELECT 1", .final_answer_chunk "One."]).foldl
          (applyAgentEvent exampleParams) exampleState) :=
  c4_amended exampleParams [.sql_query "SELECT 1", .final_answer_chunk "One."] exampleState
    (by intro e he; fin_cases he <;> rfl)
    ⟨Or.inl rfl, by
      intro m hm hid
      have h2 : exampleState.messages.getLast? = some (⟨"m1", .assistant, ""⟩ : Msg) := rfl
      rw [h2] at hm
      rw [← Option.some.inj hm]
      rfl⟩

/-! ### Claim C7: unfolding lemmas for the two replaces -/

theorem removeConfTagsL_nil : removeConfTagsL [] = [] := by
  unfold removeConfTagsL
  rfl

theorem removeConfTagsL_cons_none (c : Char) (cs : List Char)
    (h : tagMatchLen (c :: cs) = none) :
    removeConfTagsL (c :: cs) = c :: removeConfTagsL cs := by
  rw [removeConfTagsL.eq_def]
  split
  · rename_i hl
    exact absurd hl (by simp)
  · rename_i c2 rest2 heq
    obtain ⟨rfl, rfl⟩ : c2 = c ∧ rest2 = cs :=
      ⟨(List.cons.inj heq).1.symm, (List.cons.inj heq).2.symm⟩
    split
    · rename_i n hn
      rw [h] at hn
      exact Option.noConfusion hn
    · rfl

theorem removeConfTagsL_cons_some (c : Char) (cs : List Char) (n : Nat)
    (h : tagMatchLen (c :: cs) = some n) :
    removeConfTagsL (c :: cs) = removeConfTagsL ((c :: cs).drop n) := by
  rw [removeConfTagsL.eq_def]
  split
  · rename_i hl
    exact absurd hl (by simp)
  · rename_i c2 rest2 heq
    obtain ⟨rfl, rfl⟩ : c2 = c ∧ rest2 = cs :=
      ⟨(List.cons.inj heq).1.symm, (List.cons.inj heq).2.symm⟩
    split
    · rename_i n2 hn
      rw [h] at hn
      rw [Option.some.inj hn]
    · rename_i hn
      rw [h] at hn
      exact Option.noConfusion hn

theorem removeWarnL_nil : removeWarnL [] = [] := by
  unfold removeWarnL
  rfl

theorem removeWarnL_cons_pos (c : Char) (cs : List Char)
    (h : warnLit.isPrefixOf (c :: cs) = true) :
    removeWarnL (c :: cs) = removeWarnL (((c :: cs).drop warnLit.length).dropWhile (· = '\n')) := by
  rw [removeWarnL.eq_def]
  simp [h]

theorem removeWarnL_cons_neg (c : Char) (cs : List Char)
    (h : warnLit.isPrefixOf (c :: cs) = false) :
    removeWarnL (c :: cs) = c :: removeWarnL cs := by
  rw [removeWarnL.eq_def]
  simp [h]

/-! ### Claim C7: btoa output characters -/

theorem sextetChar_mem (n : Nat) : sextetChar n ∈ b64Alphabet := by
  unfold sextetChar
  split
  · exact List.get_mem _ _ _
  · decide

theorem btoaBytes_chars :
    ∀ (l : List Nat) (c : Char), c ∈ btoaBytes l → c ∈ b64Alphabet ∨ c = '='
  | [], c, h => absurd h (by simp [btoaBytes])
  | [a], c, h => by
    simp only [btoaBytes, List.mem_cons, List.not_mem_nil, or_false] at h
    rcases h with rfl | rfl | rfl | rfl
    · exact Or.inl (sextetChar_mem _)
    · exact Or.inl (sextetChar_mem _)
    · exact Or.inr rfl
    · exact Or.inr rfl
  | [a, b], c, h => by
    simp only [btoaBytes, List.mem_cons, List.not_mem_nil, or_false] at h
    rcases h with rfl | rfl | rfl | rfl
    · exact Or.inl (sextetChar_mem _)
    · exact Or.inl (sextetChar_mem _)
    · exact Or.inl (sextetChar_mem _)
    · exact Or.inr rfl
  | a :: b :: d :: rest, c, h => by
    simp only [btoaBytes, List.mem_cons] at h
    rcases h with rfl | rfl | rfl | rfl | h
    · exact Or.inl (sextetChar_mem _)
    · exact Or.inl (sextetChar_mem _)
    · exact Or.inl (sextetChar_mem _)
    · exact Or.inl (sextetChar_mem _)
    · exact btoaBytes_chars rest c h

/-- No character outside the base64 alphabet and padding appears in a
btoa output; in particular none of the delimiter characters the regex
removals key on. -/
theorem btoa_ne (s : String) (x : Char) (hx1 : x ∉ b64Alphabet) (hx2 : x ≠ '=') :
    ∀ c ∈ (btoa s).data, c ≠ x := by
  intro c hc he
  subst he
  rcases btoaBytes_chars _ c hc with h | h
  · exact hx1 h
  · exact hx2 h

theorem forall_ne_append {x : Char} {a b : List Char}
    (ha : ∀ c ∈ a, c ≠ x) (hb : ∀ c ∈ b, c ≠ x) : ∀ c ∈ a ++ b, c ≠ x := by
  intro c hc
  rcases List.mem_append.mp hc with h | h
  · exact ha c h
  · exact hb c h

/-! ### Claim C7: where the patterns can match -/

theorem isPrefixOf_append_self (a b : List Char) : a.isPrefixOf (a ++ b) = true :=
  List.isPrefixOf_iff_prefix.mpr ⟨b, rfl⟩

/-- The tag pattern needs a lower-than sign two characters in. -/
theorem tagStart_not_pref (l : List Char) (h : l.get? 2 ≠ some '<') :
    tagStartLit.isPrefixOf l = false := by
  have he : tagStartLit = '\n' :: '\n' :: '<' :: "confirmation".data := rfl
  match l with
  | [] => rfl
  | [a] =>
    rw [he]
    show (('\n' == a) && false) = false
    simp
  | [a, b] =>
    rw [he]
    show (('\n' == a) && (('\n' == b) && false)) = false
    simp
  | a :: b :: x :: rest =>
    have hx : ¬ ('<' = x) := fun e => h (by simp [← e])
    rw [he]
    show (('\n' == a) && (('\n' == b) && (('<' == x) &&
      ("confirmation".data.isPrefixOf rest)))) = false
    rw [show ('<' == x) = false from beq_eq_false_iff_ne.mpr hx]
    simp

theorem tagMatchLen_none_of_get2 (l : List Char) (h : l.get? 2 ≠ some '<') :
    tagMatchLen l = none := by
  unfold tagMatchLen
  rw [tagStart_not_pref l h]
  rfl

/-- The warning pattern needs a warning sign two characters in. -/
theorem warnStart_not_pref (l : List Char) (h : l.get? 2 ≠ some '⚠') :
    warnLit.isPrefixOf l = false := by
  have he : warnLit = '*' :: '*' :: '⚠' ::
    "️ This operation will modify your data. Please confirm:**".data := rfl
  match l with
  | [] => rfl
  | [a] =>
    rw [he]
    show (('*' == a) && false) = false
    simp
  | [a, b] =>
    rw [he]
    show (('*' == a) && (('*' == b) && false)) = false
    simp
  | a :: b :: x :: rest =>
    have hx : ¬ ('⚠' = x) := fun e => h (by simp [← e])
    rw [he]
    show (('*' == a) && (('*' == b) && (('⚠' == x) &&
      ("️ This operation will modify your data. Please confirm:**".data.isPrefixOf rest)))) = false
    rw [show ('⚠' == x) = false from beq_eq_false_iff_ne.mpr hx]
    simp

theorem idxOfGt_append (inner : List Char) (rest : List Char)
    (hgt : ∀ c ∈ inner, c ≠ '>') :
    idxOfGt (inner ++ '/' :: '>' :: rest) = some (inner.length + 1) := by
  induction inner with
  | nil =>
    show idxOfGt ('/' :: '>' :: rest) = some 1
    unfold idxOfGt
    rw [if_neg (by decide)]
    unfold idxOfGt
    rw [if_pos rfl]
    rfl
  | cons c cs ih =>
    have hc : ¬ (c = '>') := hgt c (List.mem_cons_self _ _)
    show idxOfGt (c :: (cs ++ '/' :: '>' :: rest)) = some (cs.length + 1 + 1)
    unfold idxOfGt
    rw [if_neg hc, ih (fun d hd => hgt d (List.mem_cons_of_mem _ hd))]
    rfl

theorem tagMatchLen_tag (inner rest : List Char) (hne : inner ≠ [])
    (hgt : ∀ c ∈ inner, c ≠ '>') :
    tagMatchLen (tagStartLit ++ (inner ++ '/' :: '>' :: rest)) =
      some (tagStartLit.length + (inner.length + 1) + 1) := by
  unfold tagMatchLen
  rw [isPrefixOf_append_self, List.drop_left, idxOfGt_append inner rest hgt]
  have h1 : 2 ≤ inner.length + 1 := by
    have : 0 < inner.length := List.length_pos.mpr hne
    omega
  have h2 : (inner ++ '/' :: '>' :: rest).getD (inner.length + 1 - 1) ' ' = '/' := by
    have hn : inner.length + 1 - 1 = inner.length := by omega
    rw [hn]
    rw [List.getD_eq_getElem?_getD, List.getElem?_append_right (Nat.le_refl _)]
    simp
  show (if 2 ≤ inner.length + 1 ∧
      (inner ++ '/' :: '>' :: rest).getD (inner.length + 1 - 1) ' ' = '/' then
    some (tagStartLit.length + (inner.length + 1) + 1)
  else none) = some (tagStartLit.length + (inner.length + 1) + 1)
  rw [if_pos ⟨h1, h2⟩]

/-- One full match of the tag pattern removes the tag and continues
after it. -/
theorem removeConfTagsL_tag (inner rest : List Char) (hne : inner ≠ [])
    (hgt : ∀ c ∈ inner, c ≠ '>') :
    removeConfTagsL (tagStartLit ++ (inner ++ '/' :: '>' :: rest)) =
      removeConfTagsL rest := by
  have hm := tagMatchLen_tag inner rest hne hgt
  have hshape : tagStartLit ++ (inner ++ '/' :: '>' :: rest) =
      '\n' :: ('\n' :: '<' :: "confirmation".data ++ (inner ++ '/' :: '>' :: rest)) := rfl
  rw [hshape] at hm ⊢
  rw [removeConfTagsL_cons_some _ _ _ hm]
  have hlen : tagStartLit.length + (inner.length + 1) + 1 =
      (tagStartLit ++ inner ++ ['/', '>']).length := by
    simp [List.length_append]
    omega
  rw [show ('\n' :: ('\n' :: '<' :: "confirmation".data ++ (inner ++ '/' :: '>' :: rest))) =
      (tagStartLit ++ inner ++ ['/', '>']) ++ rest from by simp [tagStartLit]]
  rw [hlen, List.drop_left]

/-- Scanning text without a lower-than sign leaves it unchanged up to
the tag start. -/
theorem removeConfTagsL_skip (D R : List Char) (hD : ∀ c ∈ D, c ≠ '<') :
    removeConfTagsL (D ++ (tagStartLit ++ R)) = D ++ removeConfTagsL (tagStartLit ++ R) := by
  induction D with
  | nil => rfl
  | cons d D ih =>
    have hget : (d :: (D ++ (tagStartLit ++ R))).get? 2 ≠ some '<' := by
      match D with
      | [] => simp [tagStartLit]
      | [e] => simp [tagStartLit]
      | e :: f :: D2 =>
        have hf : f ≠ '<' := hD f (List.mem_cons_of_mem d (List.mem_cons_of_mem e (List.mem_cons_self f D2)))
        simp [hf]
    rw [List.cons_append, removeConfTagsL_cons_none _ _ (tagMatchLen_none_of_get2 _ hget),
      ih (fun c hc => hD c (List.mem_cons_of_mem _ hc))]
    rfl

/-- One full match of the warning pattern removes it together with the
newline run after it. -/
theorem removeWarnL_warn (rest : List Char) :
    removeWarnL (warnLit ++ rest) = removeWarnL (rest.dropWhile (· = '\n')) := by
  have hshape : warnLit ++ rest = '*' :: ('*' :: '⚠' ::
      "️ This operation will modify your data. Please confirm:**".data ++ rest) := rfl
  have hpre : warnLit.isPrefixOf (warnLit ++ rest) = true := isPrefixOf_append_self _ _
  rw [hshape] at hpre ⊢
  rw [removeWarnL_cons_pos _ _ hpre]
  rw [show ('*' :: ('*' :: '⚠' ::
      "️ This operation will modify your data. Please confirm:**".data ++ rest)) =
    warnLit ++ rest from rfl]
  rw [List.drop_left]

/-- Scanning text without a warning sign leaves it unchanged up to the
warning start. -/
theorem removeWarnL_skip (A R : List Char) (hA : ∀ c ∈ A, c ≠ '⚠') :
    removeWarnL (A ++ (warnLit ++ R)) = A ++ removeWarnL (warnLit ++ R) := by
  induction A with
  | nil => rfl
  | cons a A ih =>
    have hget : (a :: (A ++ (warnLit ++ R))).get? 2 ≠ some '⚠' := by
      match A with
      | [] => simp [warnLit]
      | [e] => simp [warnLit]
      | e :: f :: A2 =>
        have hf : f ≠ '⚠' := hA f (List.mem_cons_of_mem a (List.mem_cons_of_mem e (List.mem_cons_self f A2)))
        simp [hf]
    rw [List.cons_append, removeWarnL_cons_neg _ _ (warnStart_not_pref _ hget),
      ih (fun c hc => hA c (List.mem_cons_of_mem _ hc))]
    rfl

/-! ### Claim C7: the cleanup on a confirmation message -/

/-- On a confirmation message built over any prior content without the
two marker characters, the cancel cleanup removes exactly the
confirmation tag and the warning line and trims: what remains is the
prior content, the operation message and the SQL block. -/
theorem cancelCleanup_spec (pre op sql msg model : String)
    (hpre1 : ∀ c ∈ pre.data, c ≠ '<') (hpre2 : ∀ c ∈ pre.data, c ≠ '⚠')
    (hmsg1 : ∀ c ∈ msg.data, c ≠ '<') (hmsg2 : ∀ c ∈ msg.data, c ≠ '⚠')
    (hsql1 : ∀ c ∈ sql.data, c ≠ '<') (hsql2 : ∀ c ∈ sql.data, c ≠ '⚠')
    (hop : ∀ c ∈ op.data, c ≠ '>') (hmodel : ∀ c ∈ model.data, c ≠ '>') :
    cancelCleanup (pre ++ "\n\n" ++ confirmationText op sql msg model) =
      jsTrim (pre ++ "\n\n" ++ msg ++ "\n\n**SQL to Execute:**\n```sql\n" ++ sql ++
        "\n```\n\n") := by
  have hX : (pre ++ "\n\n" ++ confirmationText op sql msg model).data =
      (pre.data ++ ("\n\n".data ++ (msg.data ++ ("\n\n**SQL to Execute:**\n```sql\n".data ++
        (sql.data ++ ("\n```\n\n".data ++ warnLit)))))) ++
      (tagStartLit ++ ((" operation=\"".data ++ (op.data ++ ("\" sql=\"".data ++
        ((btoa sql).data ++ ("\" message=\"".data ++ ((btoa msg).data ++
        ("\" model=\"".data ++ (model.data ++ "\" ".data)))))))) ++ '/' :: '>' :: [])) := by
    simp only [confirmationText, String.data_append, warnLit, tagStartLit,
      List.append_assoc, List.cons_append, List.nil_append]
  have hDlt : ∀ c ∈ (pre.data ++ ("\n\n".data ++ (msg.data ++
      ("\n\n**SQL to Execute:**\n```sql\n".data ++ (sql.data ++ ("\n```\n\n".data ++ warnLit)))))),
      c ≠ '<' :=
    forall_ne_append hpre1 (forall_ne_append (by decide) (forall_ne_append hmsg1
      (forall_ne_append (by decide) (forall_ne_append hsql1
        (forall_ne_append (by decide) (by decide))))))
  have hinner_ne : (" operation=\"".data ++ (op.data ++ ("\" sql=\"".data ++
      ((btoa sql).data ++ ("\" message=\"".data ++ ((btoa msg).data ++
      ("\" model=\"".data ++ (model.data ++ "\" ".data)))))))) ≠ [] := by
    simp
  have hinner_gt : ∀ c ∈ (" operation=\"".data ++ (op.data ++ ("\" sql=\"".data ++
      ((btoa sql).data ++ ("\" message=\"".data ++ ((btoa msg).data ++
      ("\" model=\"".data ++ (model.data ++ "\" ".data)))))))), c ≠ '>' :=
    forall_ne_append (by decide) (forall_ne_append hop (forall_ne_append (by decide)
      (forall_ne_append (btoa_ne sql '>' (by decide) (by decide))
        (forall_ne_append (by decide) (forall_ne_append (btoa_ne msg '>' (by decide) (by decide))
          (forall_ne_append (by decide) (forall_ne_append hmodel (by decide))))))))
  unfold cancelCleanup
  rw [hX, removeConfTagsL_skip _ _ hDlt, removeConfTagsL_tag _ [] hinner_ne hinner_gt,
    removeConfTagsL_nil, List.append_nil]
  have hD2 : (pre.data ++ ("\n\n".data ++ (msg.data ++ ("\n\n**SQL to Execute:**\n```sql\n".data ++
      (sql.data ++ ("\n```\n\n".data ++ warnLit)))))) =
      (pre.data ++ ("\n\n".data ++ (msg.data ++ ("\n\n**SQL to Execute:**\n```sql\n".data ++
      (sql.data ++ "\n```\n\n".data))))) ++ (warnLit ++ []) := by
    simp only [List.append_assoc, List.append_nil]
  have hA2 : ∀ c ∈ (pre.data ++ ("\n\n".data ++ (msg.data ++
      ("\n\n**SQL to Execute:**\n```sql\n".data ++ (sql.data ++ "\n```\n\n".data))))), c ≠ '⚠' :=
    forall_ne_append hpre2 (forall_ne_append (by decide) (forall_ne_append hmsg2
      (forall_ne_append (by decide) (forall_ne_append hsql2 (by decide)))))
  rw [hD2, removeWarnL_skip _ _ hA2, removeWarnL_warn, List.dropWhile_nil, removeWarnL_nil,
    List.append_nil]
  have hfin : (⟨pre.data ++ ("\n\n".data ++ (msg.data ++ ("\n\n**SQL to Execute:**\n```sql\n".data ++
      (sql.data ++ "\n```\n\n".data))))⟩ : String) =
      pre ++ "\n\n" ++ msg ++ "\n\n**SQL to Execute:**\n```sql\n" ++ sql ++ "\n```\n\n" := by
    apply congrArg String.mk
    simp only [String.data_append, List.append_assoc]
  rw [hfin]

/-- Claim C7: rejection round.  For every pending confirmation whose
message, SQL and prior content avoid the two marker characters (the
tag bracket and the warning sign, which the appended block itself
introduces), resolving with Cancel clears the pending operation,
rewrites the last assistant message to the confirmation message with
the directive tag and warning stripped, and issues only a plain agent
query — no confirm-and-execute request, so the captured SQL is not
executed. -/
theorem c7_rejection (mid pre op sql msg model ls : String) (rest : List Msg)
    (is : Bool) (cid : Option Nat) (po : Option PendingOp)
    (hpre1 : ∀ c ∈ pre.data, c ≠ '<') (hpre2 : ∀ c ∈ pre.data, c ≠ '⚠')
    (hmsg1 : ∀ c ∈ msg.data, c ≠ '<') (hmsg2 : ∀ c ∈ msg.data, c ≠ '⚠')
    (hsql1 : ∀ c ∈ sql.data, c ≠ '<') (hsql2 : ∀ c ∈ sql.data, c ≠ '⚠')
    (hop : ∀ c ∈ op.data, c ≠ '>') (hmodel : ∀ c ∈ model.data, c ≠ '>') :
    resolveCancel model true
        ⟨rest ++ [⟨mid, .assistant, pre ++ "\n\n" ++ confirmationText op sql msg model⟩],
          ls, is, po, cid⟩ =
      (⟨rest ++ [⟨mid, .assistant,
          jsTrim (pre ++ "\n\n" ++ msg ++ "\n\n**SQL to Execute:**\n```sql\n" ++ sql ++
            "\n```\n\n")⟩], ls, is, none, cid⟩,
        [ApiRequest.agentQuery "Cancel" cid model]) ∧
    ∀ r ∈ (resolveCancel model true
        ⟨rest ++ [⟨mid, .assistant, pre ++ "\n\n" ++ confirmationText op sql msg model⟩],
          ls, is, po, cid⟩).2, isConfirmExecute r = false := by
  have hclean := cancelCleanup_spec pre op sql msg model hpre1 hpre2 hmsg1 hmsg2 hsql1 hsql2
    hop hmodel
  constructor
  · unfold resolveCancel
    rw [if_pos rfl]
    have hmsgs : setLastIf
        (rest ++ [⟨mid, .assistant, pre ++ "\n\n" ++ confirmationText op sql msg model⟩])
        (fun m => m.role = Role.assistant)
        (fun m => { m with content := cancelCleanup m.content }) =
        rest ++ [⟨mid, .assistant,
          jsTrim (pre ++ "\n\n" ++ msg ++ "\n\n**SQL to Execute:**\n```sql\n" ++ sql ++
            "\n```\n\n")⟩] := by
      rw [setLastIf_concat,
        if_pos (show decide ((⟨mid, .assistant,
          pre ++ "\n\n" ++ confirmationText op sql msg model⟩ : Msg).role = Role.assistant) =
            true from rfl)]
      show rest ++ [⟨mid, .assistant,
        cancelCleanup (pre ++ "\n\n" ++ confirmationText op sql msg model)⟩] = _
      rw [hclean]
    rw [hmsgs]
  · intro r hr
    unfold resolveCancel at hr
    rw [if_pos rfl] at hr
    have : r = ApiRequest.agentQuery "Cancel" cid model := by
      simpa using hr
    rw [this]
    rfl

/-- Witness for claim C7: a concrete pending DELETE rejected. -/
theorem c7_rejection_witness :
    resolveCancel "gemini-2.5-flash" true
        ⟨[⟨"u0", .user, "drop it"⟩] ++ [⟨"m1", .assistant,
          "Plan:" ++ "\n\n" ++ confirmationText "DELETE" "DROP TABLE t" "This deletes data"
            "gemini-2.5-flash"⟩], "", false, some ⟨"DELETE", "DROP TABLE t",
          "This deletes data", "gemini-2.5-flash"⟩, some 3⟩ =
      (⟨[⟨"u0", .user, "drop it"⟩] ++ [⟨"m1", .assistant,
          jsTrim ("Plan:" ++ "\n\n" ++ "This deletes data" ++
            "\n\n**SQL to Execute:**\n```sql\n" ++ "DROP TABLE t" ++ "\n```\n\n")⟩],
        "", false, none, some 3⟩,
        [ApiRequest.agentQuery "Cancel" (some 3) "gemini-2.5-flash"]) ∧
    ∀ r ∈ (resolveCancel "gemini-2.5-flash" true
        ⟨[⟨"u0", .user, "drop it"⟩] ++ [⟨"m1", .assistant,
          "Plan:" ++ "\n\n" ++ confirmationText "DELETE" "DROP TABLE t" "This deletes data"
            "gemini-2.5-flash"⟩], "", false, some ⟨"DELETE", "DROP TABLE t",
          "This deletes data", "gemini-2.5-flash"⟩, some 3⟩).2, isConfirmExecute r = false :=
  c7_rejection "m1" "Plan:" "DELETE" "DROP TABLE t" "This deletes data" "gemini-2.5-flash"
    "" [⟨"u0", .user, "drop it"⟩] false (some 3)
    (some ⟨"DELETE", "DROP TABLE t", "This deletes data", "gemini-2.5-flash"⟩)
    (by decide) (by decide) (by decide) (by decide) (by decide) (by decide)
    (by decide) (by decide)

set_option maxRecDepth 4000 in
/-- Claim C4, counterexample: the event sequence
`confirmation_required` then `cancelled` contains no
`final_answer_complete`, yet the `cancelled` handler strips the
confirmation tag and warning line, so the active content shrinks. -/
theorem c4_counterexample :
    (lastContent (applyAgentEvent exampleParams c4ConfState .cancelled)).length <
      (lastContent c4ConfState).length := by
  have hspec := cancelCleanup_spec "" "D" "x" "m"
    "gemini-2.5-flash" (by decide) (by decide) (by decide) (by decide) (by decide)
    (by decide) (by decide) (by decide)
  have h1 : lastContent (applyAgentEvent exampleParams c4ConfState .cancelled) =
      cancelCleanup (lastContent c4ConfState) := rfl
  have h2 : lastContent c4ConfState =
      "" ++ "\n\n" ++ confirmationText "D" "x" "m" "gemini-2.5-flash" := rfl
  rw [h1, h2, hspec]
  decide

/-! ### Claim C6 -/

/-- The final-answer region of the composed ask-mode content: the
mode-dependent wrapping of the final answer that follows the
accumulated buffer. -/
def faRegionAsk (isGeneralMode : Bool) (accumulated finalAnswer : String) : String :=
  if finalAnswer ≠ "" then
    if isGeneralMode || !jsIncludes accumulated "**Executed SQL Query:**" ||
        !jsIncludes accumulated "@" then
      if jsTrim accumulated ≠ "" then "\n\n" ++ finalAnswer else finalAnswer
    else "\n\n---\n\n**💡 Conclusion:**\n" ++ finalAnswer
  else ""

/-- On buffers whose accumulated part is empty or has visible text —
every reachable buffer, since all appends carry visible characters —
the composed content splits as the accumulated prefix followed by the
final-answer region. -/
theorem buildContentAsk_decomp (g : Bool) (acc fa : String)
    (h : acc = "" ∨ jsTrim acc ≠ "") :
    buildContentAsk g acc fa = acc ++ faRegionAsk g acc fa := by
  unfold buildContentAsk faRegionAsk
  by_cases hfa : fa = ""
  · simp [hfa]
  · by_cases hplain : (g || !jsIncludes acc "**Executed SQL Query:**" || !jsIncludes acc "@") = true
    · by_cases htrim : jsTrim acc = ""
      · have hacc : acc = "" := by
          rcases h with h | h
          · exact h
          · exact absurd htrim h
        subst hacc
        simp [hfa, hplain, htrim]
      · simp [hfa, hplain, htrim, String.append_assoc]
    · simp [hfa, hplain, String.append_assoc]

/-- Claim C6: single rewrite.  Applying `final_answer_complete` leaves
the accumulated buffer untouched, and the composed content both before
and after splits as that identical accumulated prefix followed by a
final-answer region; the region after the event is a function of the
event text alone, so the trailing region is replaced, not appended. -/
theorem c6_single_rewrite (p : StreamParams) (s : HandlerState) (t : String)
    (h : s.accumulated = "" ∨ jsTrim s.accumulated ≠ "") :
    (applyAskEvent p s (.final_answer_complete t)).accumulated = s.accumulated ∧
    buildContentAsk p.isGeneralMode (applyAskEvent p s (.final_answer_complete t)).accumulated
        (applyAskEvent p s (.final_answer_complete t)).finalAnswer =
      s.accumulated ++ faRegionAsk p.isGeneralMode s.accumulated t ∧
    buildContentAsk p.isGeneralMode s.accumulated s.finalAnswer =
      s.accumulated ++ faRegionAsk p.isGeneralMode s.accumulated s.finalAnswer := by
  refine ⟨rfl, ?_, ?_⟩
  · show buildContentAsk p.isGeneralMode s.accumulated t = _
    exact buildContentAsk_decomp _ _ _ h
  · exact buildContentAsk_decomp _ _ _ h

/-- Witness for claim C6 at a concrete reducer state. -/
theorem c6_single_rewrite_witness :
    (applyAskEvent exampleParams exampleState (.final_answer_complete "Done.")).accumulated =
      exampleState.accumulated ∧
    buildContentAsk exampleParams.isGeneralMode
        (applyAskEvent exampleParams exampleState (.final_answer_complete "Done.")).accumulated
        (applyAskEvent exampleParams exampleState (.final_answer_complete "Done.")).finalAnswer =
      exampleState.accumulated ++
        faRegionAsk exampleParams.isGeneralMode exampleState.accumulated "Done." ∧
    buildContentAsk exampleParams.isGeneralMode exampleState.accumulated
        exampleState.finalAnswer =
      exampleState.accumulated ++
        faRegionAsk exampleParams.isGeneralMode exampleState.accumulated
          exampleState.finalAnswer :=
  c6_single_rewrite exampleParams exampleState "Done." (Or.inl rfl)

/-! ### Claim C9 -/

def c9State : StopState := ⟨false, false, false, some ⟨"DELETE", "DROP TABLE t", "warn", "g"⟩⟩

/-- Claim C9, counterexample: while a confirmation is pending no abort
controller exists (`handleSendMessage` nulled it in its `finally`), so
`handleStopGeneration` is a silent no-op that leaves the stale
PendingOperation in place — it is neither rejected nor queued. -/
theorem c9_counterexample :
    handleStopGeneration c9State = c9State ∧ c9State.pendingOperation.isSome = true := by
  decide

/-- Claim C9, amended: a stop issued with no live abort controller —
in particular while awaiting a confirmation — changes nothing at all:
it does not signal, does not clear the loading flag, and leaves the
pending operation untouched. -/
theorem c9_amended (s : StopState) (h : s.abortControllerLive = false) :
    handleStopGeneration s = s := by
  unfold handleStopGeneration
  rw [h]
  simp

/-- Witness for the amended claim C9. -/
theorem c9_amended_witness :
    handleStopGeneration ⟨false, false, true, none⟩ = ⟨false, false, true, none⟩ :=
  c9_amended ⟨false, false, true, none⟩ rfl

/-! ### Claim C10 -/

theorem take_pred_setLastIf (ms : List Msg) (g : Msg → Bool) (f : Msg → Msg) :
    (setLastIf ms g f).take (ms.length - 1) = ms.take (ms.length - 1) := by
  rcases List.eq_nil_or_concat ms with rfl | ⟨l, a, rfl⟩
  · rfl
  · simp only [List.concat_eq_append]
    rw [setLastIf_concat]
    by_cases hg : g a = true
    · rw [if_pos hg]
      have hlen : (l ++ [a]).length - 1 = l.length := by simp
      rw [hlen, List.take_left, List.take_left]
    · rw [if_neg (by simp [hg])]

theorem take_pred_append (ms xs : List Msg) :
    ((ms ++ xs).take (ms.length - 1)) = ms.take (ms.length - 1) := by
  rw [List.take_append_eq_append_take]
  have h : ms.length - 1 - ms.length = 0 := by omega
  rw [h]
  simp

theorem take_pred_dropLast_concat (ms : List Msg) (x : Msg) :
    ((ms.dropLast ++ [x]).take (ms.length - 1)) = ms.take (ms.length - 1) := by
  rcases List.eq_nil_or_concat ms with rfl | ⟨l, a, rfl⟩
  · rfl
  · simp only [List.concat_eq_append]
    have hlen : (l ++ [a]).length - 1 = l.length := by simp
    rw [hlen, List.dropLast_concat, List.take_left, List.take_left]

/-- Claim C10, counterexample: the confirm-stream
`confirmation_required` handler reloads the conversation from the
backend, replacing the whole message list; an earlier message — here
the first, a user message — is not byte-for-byte preserved. -/
theorem c10_counterexample :
    (applyConfirmEvent ⟨"UPDATE", "g", [⟨"b1", .assistant, "rewritten"⟩]⟩
        ⟨[⟨"u1", .user, "original"⟩, ⟨"a1", .assistant, "conf"⟩], "", true, none, some 3⟩
        (.confirmation_required "DELETE" "DROP TABLE t" "warn")).messages.head? ≠
      (⟨[⟨"u1", .user, "original"⟩, ⟨"a1", .assistant, "conf"⟩], "", true, none,
          some 3⟩ : LayoutState).messages.head? := by
  decide

/-- Claim C10, amended: every event handler of the two streaming
reducers, and every confirm-stream handler except
`confirmation_required`, leaves all messages before the last
byte-for-byte unchanged; the confirm-stream `confirmation_required`
handler instead replaces the whole list with the conversation fetched
from the backend whenever a conversation id is known. -/
theorem c10_amended :
    (∀ (p : StreamParams) (s : HandlerState) (e : StreamEvent),
      (applyAskEvent p s e).messages.take (s.messages.length - 1) =
        s.messages.take (s.messages.length - 1)) ∧
    (∀ (p : StreamParams) (s : HandlerState) (e : StreamEvent),
      (applyAgentEvent p s e).messages.take (s.messages.length - 1) =
        s.messages.take (s.messages.length - 1)) ∧
    (∀ (env : ConfirmEnv) (s : LayoutState) (e : StreamEvent),
      (∀ op sql msg, e ≠ .confirmation_required op sql msg) →
      (applyConfirmEvent env s e).messages.take (s.messages.length - 1) =
        s.messages.take (s.messages.length - 1)) ∧
    (∀ (env : ConfirmEnv) (s : LayoutState) (op sql msg : String),
      s.conversationId.isSome = true →
      (applyConfirmEvent env s (.confirmation_required op sql msg)).messages = env.fetched) := by
  refine ⟨?_, ?_, ?_, ?_⟩
  · intro p s e
    cases e <;>
      simp only [applyAskEvent, take_pred_setLastIf, take_pred_append]
    case final_answer c =>
      cases hml : s.messages.getLast? with
      | none => rw [take_pred_append]
      | some m =>
        by_cases hid : m.id = p.streamingMessageId
        · simp only [hid, if_true, take_pred_dropLast_concat]
        · simp only [hid, if_false, take_pred_append]
  · intro p s e
    cases e <;>
      simp only [applyAgentEvent, take_pred_setLastIf, take_pred_append]
    case final_answer c =>
      cases hml : s.messages.getLast? with
      | none => rw [take_pred_append]
      | some m =>
        by_cases hid : m.id = p.streamingMessageId
        · simp only [hid, if_true, take_pred_dropLast_concat]
        · simp only [hid, if_false, take_pred_append]
    case confirmation_required op sql msg =>
      cases hml : s.messages.getLast? with
      | none => rw [take_pred_append]
      | some m =>
        by_cases hid : m.id = p.streamingMessageId
        · simp only [hid, if_true, take_pred_dropLast_concat]
        · simp only [hid, if_false, take_pred_append]
  · intro env s e he
    cases e <;>
      simp only [applyConfirmEvent, take_pred_setLastIf]
    case sql_result r =>
      by_cases hc : env.operation ≠ "" ∧ r.data = none
      · rw [if_pos hc]
        unfold confirmMutationStep
        by_cases hs : r.success = true <;> simp [hs, take_pred_setLastIf]
      · rw [if_neg hc]
        unfold confirmQueryStep
        simp [take_pred_setLastIf]
    case confirmation_required op sql msg =>
      exact absurd rfl (he op sql msg)
  · intro env s op sql msg h
    simp [applyConfirmEvent, h]

/-- Witness for the amended claim C10 at a concrete state and event. -/
theorem c10_amended_witness :
    (applyConfirmEvent ⟨"U", "g", []⟩ ⟨[⟨"u1", .user, "q"⟩, ⟨"a1", .assistant, "r"⟩], "", true, none, none⟩
        (.done none)).messages.take 1 =
      ([⟨"u1", .user, "q"⟩, ⟨"a1", .assistant, "r"⟩] : List Msg).take 1 ∧
    (applyConfirmEvent ⟨"U", "g", [⟨"b1", .assistant, "z"⟩]⟩
        ⟨[⟨"u1", .user, "q"⟩], "", true, none, some 3⟩
        (.confirmation_required "D" "s" "m")).messages = [⟨"b1", .assistant, "z"⟩] :=
  ⟨c10_amended.2.2.1 ⟨"U", "g", []⟩
      ⟨[⟨"u1", .user, "q"⟩, ⟨"a1", .assistant, "r"⟩], "", true, none, none⟩
      (.done none) (fun _ _ _ h => StreamEvent.noConfusion h),
   c10_amended.2.2.2 ⟨"U", "g", [⟨"b1", .assistant, "z"⟩]⟩
      ⟨[⟨"u1", .user, "q"⟩], "", true, none, some 3⟩ "D" "s" "m" rfl⟩

end AskQL
